import Mathlib

/-!
# PSP audio driver (`src/audio/psp/SDL_pspaudio.c`) and PS2 joystick driver
(`src/joystick/ps2/SDL_sysjoystick.c`)

A shallow embedding of the PSP audio output driver: `interleave`,
`PSPAUDIO_OpenDevice`, `PSPAUDIO_PlayDevice`, `PSPAUDIO_GetDeviceBuf` and
`PSPAUDIO_CloseDevice` (namespace `PSPAudio`), and of the update of the PS2
joystick driver (namespace `PS2Joystick`). The definitions of both come first,
the theorems about them after.

Conventions of the embedding.

* Memory blocks are lists of cells. The mixing region `rawbuf` is a list of
  bytes; a `Uint8 *` into it is a byte offset. A `NULL` pointer is `none`.
* The outcome of every call into the allocator or the audio hardware is an
  input of the model (the environment), and every such call is recorded, with
  its arguments, in a trace of `Event`s.
* An access outside the block a pointer points into is undefined in C; the
  model stops there with `none`.
* C integers are `Nat`/`Int`; a store into a narrower field is written
  with an explicit `% 2 ^ w`.
-/

namespace PSPAudio

/-! ## Constants and types taken from headers that are not part of `src/` -/

/-- Modelled from the spec: the constant `AUDIO_S16LSB` of `SDL_audio.h`, the one
supported signed 16-bit little-endian sample format. -/
def AUDIO_S16LSB : Nat := 0x8010

/-- Modelled from the spec: the constant `PSP_AUDIO_VOLUME_MAX` of the platform header
`pspaudio.h`, the maximum volume of a blocking write. -/
def PSP_AUDIO_VOLUME_MAX : Nat := 0x8000

/-- Modelled from the spec: the constant `PSP_AUDIO_NEXT_CHANNEL` of the platform
header `pspaudio.h`, asking the hardware for the next free fixed channel. -/
def PSP_AUDIO_NEXT_CHANNEL : Int := -1

/-- The two channel layouts of a fixed-format hardware channel
(`PSP_AUDIO_FORMAT_MONO`, `PSP_AUDIO_FORMAT_STEREO` of `pspaudio.h`). -/
inductive PspAudioFormats where
  | PSP_AUDIO_FORMAT_STEREO
  | PSP_AUDIO_FORMAT_MONO
  deriving DecidableEq, Repr

/-- Modelled from the spec: the macro `PSP_AUDIO_SAMPLE_ALIGN` of the platform header
`pspaudio.h`, which rounds a sample count up to the nearest multiple of 64. It is
evaluated in `int`, so the result is not yet truncated. -/
def PSP_AUDIO_SAMPLE_ALIGN (s : Nat) : Nat := (s + 63) / 64 * 64

/-- The fields of `SDL_AudioSpec` the driver reads or writes. `freq` is an `int`,
`format` and `samples` are 16-bit unsigned, `channels` is 8-bit unsigned and
`size` is 32-bit unsigned. -/
structure SDL_AudioSpec where
  freq : Int
  format : Nat
  channels : Nat
  samples : Nat
  size : Nat
  deriving DecidableEq, Repr

/-- Modelled from the spec: `SDL_CalculateAudioSpec` of `SDL_audio.c`, which is not
under `src/`. It recomputes the derived field `size` as
`sampleCount × channels × 2 bytes` (the format is already the 16-bit one when the
driver calls it). -/
def SDL_CalculateAudioSpec (spec : SDL_AudioSpec) : SDL_AudioSpec :=
  { spec with size := spec.samples * spec.channels * 2 }

/-- The driver's private data (`struct SDL_PrivateAudioData`): the channel handle,
the mixing region (`none` is `NULL`, `some bytes` an allocated block with its
contents), the `NUM_BUFFERS` mix buffer pointers (byte offsets into `rawbuf`,
`none` is `NULL`) and the buffer cursor. -/
structure SDL_PrivateAudioData where
  channel : Int
  rawbuf : Option (List Nat)
  mixbufs : List (Option Nat)
  next_buffer : Nat
  deriving DecidableEq, Repr

/-- The audio device `this`: its spec and the pointer `this->hidden`. -/
structure SDL_AudioDevice where
  spec : SDL_AudioSpec
  hidden : Option SDL_PrivateAudioData
  deriving DecidableEq, Repr

/-- The buffer handed to a blocking write of the converting channel: either a
pointer into the mixing region or the transient scratch block, given with the
16-bit cells it holds when the call is made (`none` when the block is `NULL`). -/
inductive OutBuf where
  | mix (p : Option Nat)
  | scratch (cells : Option (List Nat))
  deriving DecidableEq, Repr

/-- Calls into the allocator and the audio hardware, with their arguments and,
for the calls whose result the driver uses, the value returned. -/
inductive Event where
  | memalign (alignment size : Nat) (ok : Bool)
  | free
  | SDL_malloc (size : Nat) (ok : Bool)
  | SDL_free
  | sceAudioChReserve (channel : Int) (samplecount : Nat) (format : PspAudioFormats) (ret : Int)
  | sceAudioSRCChReserve (samplecount : Nat) (freq : Int) (channels : Nat) (ret : Int)
  | sceAudioChRelease (channel : Int)
  | sceAudioSRCChRelease
  | sceAudioOutputPannedBlocking (channel : Int) (leftvol rightvol : Nat) (buf : Option Nat)
  | sceAudioSRCOutputBlocking (vol : Nat) (buf : OutBuf)
  deriving DecidableEq, Repr

/-! ## `interleave` -/

/-- The body of the `for` loop of `interleave`, run for the `todo` remaining values of
`i`: `out[i * 2] = in_L[i]; out[i * 2 + 1] = in_R[i];`. A read or a write outside
its block stops the run with `none`. -/
def interleaveLoop (in_L in_R : List Nat) : Nat → Nat → List Nat → Option (List Nat)
  | 0, _, out => some out
  | todo + 1, i, out =>
    match in_L[i]?, in_R[i]? with
    | some l, some r =>
      if i * 2 + 1 < out.length then
        interleaveLoop in_L in_R todo (i + 1) ((out.set (i * 2) l).set (i * 2 + 1) r)
      else none
    | _, _ => none

/-- The function `interleave(in_L, in_R, out, num_samples)`: the loop runs for
`i = 0, …, num_samples - 1`. The result is the output block after the call. -/
def interleave (in_L in_R out : List Nat) (num_samples : Nat) : Option (List Nat) :=
  interleaveLoop in_L in_R num_samples 0 out

/-! ## The driver -/

/-- The error reported by a failed `PSPAUDIO_OpenDevice`: `SDL_OutOfMemory()` when
the private data cannot be allocated, and the three `SDL_SetError` messages
"Unsupported audio format", "Couldn't allocate mixing buffer" and
"Couldn't reserve hardware channel". -/
inductive OpenError where
  | OutOfMemory
  | UnsupportedFormat
  | MixBufferAllocFailed
  | ChannelUnavailable
  deriving DecidableEq, Repr

/-- What the environment answers during one `PSPAUDIO_OpenDevice`: whether
`SDL_malloc` of the private data succeeds, the result of `memalign` (`none` for
`NULL`, otherwise the arbitrary initial contents of the fresh block) and the value
returned by the channel reservation call. -/
structure OpenEnv where
  hiddenAlloc : Bool
  rawAlloc : Option (Nat → Nat)
  reserveRet : Int

/-- A freshly allocated block of `len` cells whose uninitialised contents are `g`. -/
def freshBlock (len : Nat) (g : Nat → Nat) : List Nat :=
  (List.range len).map g

/-- The call `memset(block, c, n)` on a block of bytes. -/
def memset (block : List Nat) (c n : Nat) : List Nat :=
  List.replicate (min n block.length) c ++ block.drop n

/-- The function `PSPAUDIO_OpenDevice`, for a pool of `NUM_BUFFERS` buffers (the
constant of `SDL_pspaudio.h`, not under `src/`, taken as a parameter). It returns
the device after the call, the trace of the calls made and the error, if any. -/
def PSPAUDIO_OpenDevice (NUM_BUFFERS : Nat) (this : SDL_AudioDevice) (env : OpenEnv) :
    SDL_AudioDevice × List Event × Option OpenError :=
  if env.hiddenAlloc = false then
    ({ this with hidden := none }, [], some OpenError.OutOfMemory)
  else
    -- SDL_memset(this->hidden, 0, sizeof(*this->hidden))
    let hidden : SDL_PrivateAudioData :=
      { channel := 0, rawbuf := none, mixbufs := List.replicate NUM_BUFFERS none,
        next_buffer := 0 }
    match this.spec.format &&& 0xff with
    | 8 | 16 =>
      let spec : SDL_AudioSpec := { this.spec with format := AUDIO_S16LSB }
      let spec : SDL_AudioSpec :=
        { spec with samples := PSP_AUDIO_SAMPLE_ALIGN spec.samples % 2 ^ 16 }
      let spec := SDL_CalculateAudioSpec spec
      let mixlen := spec.size * NUM_BUFFERS % 2 ^ 32
      match env.rawAlloc with
      | none =>
        ({ spec := spec, hidden := some hidden },
          [Event.memalign 64 mixlen false], some OpenError.MixBufferAllocFailed)
      | some g =>
        let hidden : SDL_PrivateAudioData :=
          { hidden with rawbuf := some (freshBlock mixlen g) }
        let format :=
          if spec.channels = 1 then PspAudioFormats.PSP_AUDIO_FORMAT_MONO
          else PspAudioFormats.PSP_AUDIO_FORMAT_STEREO
        let reserve :=
          if spec.freq = 44100 then
            Event.sceAudioChReserve PSP_AUDIO_NEXT_CHANNEL spec.samples format env.reserveRet
          else
            Event.sceAudioSRCChReserve spec.samples spec.freq 2 env.reserveRet
        let hidden : SDL_PrivateAudioData := { hidden with channel := env.reserveRet }
        if hidden.channel < 0 then
          ({ spec := spec, hidden := some { hidden with rawbuf := none } },
            [Event.memalign 64 mixlen true, reserve, Event.free],
            some OpenError.ChannelUnavailable)
        else
          let hidden : SDL_PrivateAudioData :=
            { hidden with rawbuf := hidden.rawbuf.map fun b => memset b 0 mixlen }
          let hidden : SDL_PrivateAudioData :=
            { hidden with
              mixbufs := (List.range NUM_BUFFERS).map fun i => some (i * spec.size % 2 ^ 32) }
          ({ spec := spec, hidden := some { hidden with next_buffer := 0 } },
            [Event.memalign 64 mixlen true, reserve], none)
    | _ =>
      ({ this with hidden := some { hidden with channel := -1 } }, [],
        some OpenError.UnsupportedFormat)

/-- The function `PSPAUDIO_GetDeviceBuf`: the pointer `mixbufs[next_buffer]`. -/
def PSPAUDIO_GetDeviceBuf (hidden : SDL_PrivateAudioData) : Option Nat :=
  hidden.mixbufs.getD hidden.next_buffer none

/-- A block of bytes read through a `uint16_t *` (little-endian, two bytes a cell). -/
def view16 : List Nat → List Nat
  | lo :: hi :: rest => (lo + 256 * hi) :: view16 rest
  | _ => []

/-- The 16-bit cells that can be read through a pointer `p` into the mixing region:
those from the byte offset `p` to the end of the block, and none at all through a
`NULL` pointer or into a freed region. -/
def cellsAt (rawbuf : Option (List Nat)) (p : Option Nat) : List Nat :=
  match rawbuf, p with
  | some bytes, some off => view16 (bytes.drop off)
  | _, _ => []

/-- The function `PSPAUDIO_PlayDevice`, for a pool of `NUM_BUFFERS` buffers.
`scratch` is what `SDL_malloc(4 * samples)` returns on the mono resample path:
`none` for `NULL`, otherwise the initial contents of the block, which is accessed as
`2 * samples` 16-bit cells. The result is `none` when the call dereferences `NULL`
or leaves a block. -/
def PSPAUDIO_PlayDevice (NUM_BUFFERS : Nat) (this : SDL_AudioDevice)
    (scratch : Option (Nat → Nat)) : Option (SDL_AudioDevice × List Event) :=
  match this.hidden with
  | none => none
  | some hidden =>
    let next : SDL_PrivateAudioData :=
      { hidden with next_buffer := (hidden.next_buffer + 1) % NUM_BUFFERS }
    let advance : SDL_AudioDevice := { this with hidden := some next }
    if this.spec.freq ≠ 44100 then
      if this.spec.channels = 1 then
        let singleChannel := cellsAt hidden.rawbuf (hidden.mixbufs.getD hidden.next_buffer none)
        let mixbuf := scratch.map fun g => freshBlock (4 * this.spec.samples / 2) g
        match interleave singleChannel singleChannel (mixbuf.getD []) this.spec.samples with
        | none => none
        | some out =>
          some (advance,
            [Event.SDL_malloc (4 * this.spec.samples) scratch.isSome,
             Event.sceAudioSRCOutputBlocking PSP_AUDIO_VOLUME_MAX
               (OutBuf.scratch (mixbuf.map fun _ => out)),
             Event.SDL_free])
      else
        let mixbuf := hidden.mixbufs.getD hidden.next_buffer none
        some (advance,
          [Event.sceAudioSRCOutputBlocking PSP_AUDIO_VOLUME_MAX (OutBuf.mix mixbuf)])
    else
      let mixbuf := hidden.mixbufs.getD hidden.next_buffer none
      some (advance,
        [Event.sceAudioOutputPannedBlocking hidden.channel PSP_AUDIO_VOLUME_MAX
          PSP_AUDIO_VOLUME_MAX mixbuf])

/-- The function `PSPAUDIO_CloseDevice`. The result is `none` when `this->hidden`
is `NULL`. -/
def PSPAUDIO_CloseDevice (this : SDL_AudioDevice) : Option (SDL_AudioDevice × List Event) :=
  match this.hidden with
  | none => none
  | some hidden =>
    let (hidden, released) :=
      if hidden.channel ≥ 0 then
        ({ hidden with channel := -1 },
          [if this.spec.freq ≠ 44100 then Event.sceAudioSRCChRelease
           else Event.sceAudioChRelease hidden.channel])
      else (hidden, [])
    let (hidden, freed) :=
      if hidden.rawbuf ≠ none then ({ hidden with rawbuf := none }, [Event.free])
      else (hidden, [])
    some ({ this with hidden := some hidden }, released ++ freed)

/-! ## The audio hardware and the caller -/

/-- A hardware channel held by the driver: a fixed-format channel with its number,
or the one rate-converting channel. -/
inductive HwChannel where
  | fixed (id : Int)
  | src
  deriving DecidableEq, Repr

/-- Modelled from the spec: the effect of the platform calls on the hardware
channel held for this device. A reservation call that returns a non-negative value
has reserved a channel (a negative value signals that none is available), and a
release call gives back the channel it names. -/
def hwStep (held : Option HwChannel) : Event → Option HwChannel
  | Event.sceAudioChReserve _ _ _ ret => if 0 ≤ ret then some (HwChannel.fixed ret) else held
  | Event.sceAudioSRCChReserve _ _ _ ret => if 0 ≤ ret then some HwChannel.src else held
  | Event.sceAudioChRelease ch => if held = some (HwChannel.fixed ch) then none else held
  | Event.sceAudioSRCChRelease => if held = some HwChannel.src then none else held
  | _ => held

/-- The hardware channel held after a trace of calls. -/
def hwAfter (held : Option HwChannel) (trace : List Event) : Option HwChannel :=
  trace.foldl hwStep held

/-- The caller filling the current buffer: `size` bytes are written through the
pointer returned by `PSPAUDIO_GetDeviceBuf`; nothing else changes. -/
def fillCurrent (this : SDL_AudioDevice) (data : Nat → Nat) : SDL_AudioDevice :=
  match this.hidden with
  | none => this
  | some hidden =>
    match hidden.rawbuf, PSPAUDIO_GetDeviceBuf hidden with
    | some bytes, some off =>
      let bytes' := (List.range bytes.length).map fun j =>
        if off ≤ j ∧ j < off + this.spec.size then data (j - off) % 256 else bytes.getD j 0
      { this with hidden := some { hidden with rawbuf := some bytes' } }
    | _, _ => this

/-- One step of the playback cycle as the caller drives it: a fill of the current
buffer, or a `PSPAUDIO_PlayDevice` with the scratch block the allocator returns. -/
inductive Op where
  | fill (data : Nat → Nat)
  | play (scratch : Option (Nat → Nat))

/-- Whether a step is a call to `PSPAUDIO_PlayDevice`. -/
def Op.isPlay : Op → Bool
  | Op.play _ => true
  | Op.fill _ => false

/-- Running a sequence of steps from a device state; `none` when a
`PSPAUDIO_PlayDevice` among them does not return. -/
def runOps (NUM_BUFFERS : Nat) : SDL_AudioDevice → List Op → Option SDL_AudioDevice
  | this, [] => some this
  | this, Op.fill data :: ops => runOps NUM_BUFFERS (fillCurrent this data) ops
  | this, Op.play scratch :: ops =>
    match PSPAUDIO_PlayDevice NUM_BUFFERS this scratch with
    | none => none
    | some (this', _) => runOps NUM_BUFFERS this' ops

/-! ## Auxiliary definitions used to state the properties -/

/-- The bit widths `PSPAUDIO_OpenDevice` accepts: the `case 8: case 16:` labels of
the `switch (this->spec.format & 0xff)`. -/
def formatAccepted (format : Nat) : Prop :=
  format &&& 0xff = 8 ∨ format &&& 0xff = 16

instance formatAccepted.decidable (format : Nat) : Decidable (formatAccepted format) := by
  unfold formatAccepted; infer_instance

/-- The spec as `PSPAUDIO_OpenDevice` leaves it once the format is accepted: the
format, the sample count and the size are rewritten in that order. -/
def resolvedSpec (spec : SDL_AudioSpec) : SDL_AudioSpec :=
  SDL_CalculateAudioSpec
    { spec with format := AUDIO_S16LSB, samples := PSP_AUDIO_SAMPLE_ALIGN spec.samples % 2 ^ 16 }

/-- The channel reservation call `PSPAUDIO_OpenDevice` makes for a resolved spec,
with the value `ret` it returns. -/
def reserveCall (spec : SDL_AudioSpec) (ret : Int) : Event :=
  if spec.freq = 44100 then
    Event.sceAudioChReserve PSP_AUDIO_NEXT_CHANNEL spec.samples
      (if spec.channels = 1 then PspAudioFormats.PSP_AUDIO_FORMAT_MONO
       else PspAudioFormats.PSP_AUDIO_FORMAT_STEREO) ret
  else Event.sceAudioSRCChReserve spec.samples spec.freq 2 ret

/-- Whether a call reserves a hardware channel (of either kind). -/
def Event.isReserve : Event → Bool
  | Event.sceAudioChReserve _ _ _ _ => true
  | Event.sceAudioSRCChReserve _ _ _ _ => true
  | _ => false

/-- Whether a call releases a hardware channel (of either kind). -/
def Event.isRelease : Event → Bool
  | Event.sceAudioChRelease _ => true
  | Event.sceAudioSRCChRelease => true
  | _ => false

/-- Whether a call is a blocking write to a hardware channel (of either kind). -/
def Event.isBlockingWrite : Event → Bool
  | Event.sceAudioOutputPannedBlocking _ _ _ _ => true
  | Event.sceAudioSRCOutputBlocking _ _ => true
  | _ => false

/-- The shape of a device between a successful open and the close: the resolved
spec, a cursor inside the pool, the mix buffer pointers at the offsets
`i * size` and a region of `size * NUM_BUFFERS` bytes. -/
def Opened (NUM_BUFFERS : Nat) (spec : SDL_AudioSpec) (this : SDL_AudioDevice) : Prop :=
  this.spec = spec ∧
  ∃ h, this.hidden = some h ∧ h.next_buffer < NUM_BUFFERS ∧
    h.mixbufs = (List.range NUM_BUFFERS).map (fun i => some (i * spec.size % 2 ^ 32)) ∧
    ∃ bytes, h.rawbuf = some bytes ∧ bytes.length = spec.size * NUM_BUFFERS % 2 ^ 32

/-- Whether a step leaves the scratch block allocated when it asks for one. -/
def Op.allocates : Op → Bool
  | Op.play none => false
  | _ => true

/-- One access of `interleave` to one of its three blocks, by the 16-bit index it
uses: a read of `in_L[i]`, a read of `in_R[i]`, or a write of `out[j]`. -/
inductive Access where
  | read_L (i : Nat)
  | read_R (i : Nat)
  | write (j : Nat)
  deriving DecidableEq, Repr

/-- The accesses made by the `for` loop of `interleave` for the `todo` remaining
values of `i`, in program order: `out[i * 2] = in_L[i]; out[i * 2 + 1] = in_R[i];`. -/
def interleaveAccesses : Nat → Nat → List Access
  | 0, _ => []
  | todo + 1, i =>
    Access.read_L i :: Access.write (i * 2) :: Access.read_R i :: Access.write (i * 2 + 1) ::
      interleaveAccesses todo (i + 1)

/-- Whether an access stays inside its block, for blocks of `nL`, `nR` and `nOut`
cells. -/
def Access.inBounds (nL nR nOut : Nat) : Access → Prop
  | Access.read_L i => i < nL
  | Access.read_R i => i < nR
  | Access.write j => j < nOut

end PSPAudio

namespace PS2Joystick

/-! # PS2 joystick driver (`src/joystick/ps2/SDL_sysjoystick.c`)

The embedding of `pad_ready`, `PS2_JoystickOpen` and `PS2_JoystickUpdate`, built
with `UPDATE_ONLY_IF_CHANGED` defined as in the source. The answers of the pad
library are inputs of the model, and the calls that change the pad or report to
SDL are recorded in a trace. The `DBG` output and the pad queries made only to
print it are left out. -/

/-- The constant `MAX_AXES`. -/
def MAX_AXES : Int := 4

/-- The constant `MAX_BUTTONS`. -/
def MAX_BUTTONS : Int := 16

/-- The sixteen button masks of the platform header `libpad.h`, which is not under
`src/`; they are parameters of the model. -/
structure PadMasks where
  PAD_LEFT : Nat
  PAD_DOWN : Nat
  PAD_RIGHT : Nat
  PAD_UP : Nat
  PAD_START : Nat
  PAD_R3 : Nat
  PAD_L3 : Nat
  PAD_SELECT : Nat
  PAD_SQUARE : Nat
  PAD_CROSS : Nat
  PAD_CIRCLE : Nat
  PAD_TRIANGLE : Nat
  PAD_R1 : Nat
  PAD_L1 : Nat
  PAD_R2 : Nat
  PAD_L2 : Nat
  deriving DecidableEq, Repr

/-- The array `button_table`, in the order of the source. -/
def button_table (m : PadMasks) : List Nat :=
  [m.PAD_LEFT, m.PAD_DOWN, m.PAD_RIGHT, m.PAD_UP, m.PAD_START, m.PAD_R3, m.PAD_L3,
    m.PAD_SELECT, m.PAD_SQUARE, m.PAD_CROSS, m.PAD_CIRCLE, m.PAD_TRIANGLE, m.PAD_R1,
    m.PAD_L1, m.PAD_R2, m.PAD_L2]

/-- The values the sixteen masks have in `libpad.h`, one bit each; used for the
concrete examples only. -/
def libpadMasks : PadMasks :=
  { PAD_LEFT := 0x0080, PAD_DOWN := 0x0040, PAD_RIGHT := 0x0020, PAD_UP := 0x0010,
    PAD_START := 0x0008, PAD_R3 := 0x0004, PAD_L3 := 0x0002, PAD_SELECT := 0x0001,
    PAD_SQUARE := 0x8000, PAD_CROSS := 0x4000, PAD_CIRCLE := 0x2000,
    PAD_TRIANGLE := 0x1000, PAD_R1 := 0x0800, PAD_L1 := 0x0400, PAD_R2 := 0x0200,
    PAD_L2 := 0x0100 }

/-- The states `padGetState` reports: the three the driver tests for, and any
other state by its code. -/
inductive PadState where
  | PAD_STATE_DISCONN
  | PAD_STATE_FINDCTP1
  | PAD_STATE_STABLE
  | other (code : Int)
  deriving DecidableEq, Repr

/-- The fields of `struct padButtonStatus` the driver reads: the button word (16-bit
unsigned, a cleared bit is a pressed button) and the four stick readings (8-bit
unsigned). -/
structure padButtonStatus where
  btns : Nat
  rjoy_h : Nat
  rjoy_v : Nat
  ljoy_h : Nat
  ljoy_v : Nat
  deriving DecidableEq, Repr

/-- The driver's `struct joystick_hwdata`. `prev_pad` is an `int` that only ever
holds 0 or an inverted 16-bit button word. -/
structure joystick_hwdata where
  deviceid : Int
  rumble : Int
  port : Int
  slot : Int
  prev_pad : Nat
  prev_ljoy_h : Int
  prev_ljoy_v : Int
  prev_rjoy_h : Int
  prev_rjoy_v : Int
  deriving DecidableEq, Repr

/-- The fields of `SDL_Joystick` the driver touches; `hwdata` is `none` for `NULL`. -/
structure SDL_Joystick where
  naxes : Int
  nballs : Int
  nhats : Int
  nbuttons : Int
  hwdata : Option joystick_hwdata
  deriving DecidableEq, Repr

/-- The button states `SDL_PRESSED` and `SDL_RELEASED`. -/
inductive ButtonState where
  | SDL_RELEASED
  | SDL_PRESSED
  deriving DecidableEq, Repr

/-- The calls recorded in the trace of an update. -/
inductive JoyEvent where
  | padSetMainMode (port slot : Int)
  | padSetActAlign (port slot : Int)
  | SDL_PrivateJoystickButton (button : Nat) (state : ButtonState)
  | SDL_PrivateJoystickAxis (axis : Nat) (value : Int)
  deriving DecidableEq, Repr

/-- The function `PS2_JoystickOpen`. `alloc` tells whether `SDL_malloc` succeeds;
`port` and `slot` are the entries `PS2.joyports[device_index]` and
`PS2.joyslots[device_index]`. The result is the joystick and the value returned. -/
def PS2_JoystickOpen (joystick : SDL_Joystick) (alloc : Bool) (port slot : Int) :
    SDL_Joystick × Int :=
  if alloc = false then
    ({ joystick with hwdata := none }, -1)
  else
    ({ naxes := MAX_AXES, nballs := 0, nhats := 0, nbuttons := MAX_BUTTONS,
       hwdata := some
         { deviceid := -1, rumble := 0, port := port, slot := slot, prev_pad := 0,
           prev_ljoy_h := 0, prev_ljoy_v := 0, prev_rjoy_h := 0, prev_rjoy_v := 0 } }, 0)

/-- The function `pad_ready`, run on the successive answers of `padGetState`: `false`
as soon as the pad is disconnected, `true` once it is stable or in the state
`PAD_STATE_FINDCTP1`; `none` when the answers given end before the loop does. -/
def pad_ready : List PadState → Option Bool
  | [] => none
  | state :: rest =>
    if state = PadState.PAD_STATE_DISCONN then some false
    else if state ≠ PadState.PAD_STATE_STABLE ∧ state ≠ PadState.PAD_STATE_FINDCTP1 then
      pad_ready rest
    else some true

/-- The loop over the buttons in `PS2_JoystickUpdate`, for the `todo` remaining
values of `b`: a button whose masked state differs between `pad` and `prev_pad` is
reported, pressed when the masked state is non-zero. A read outside
`button_table` stops the run with `none`. -/
def buttonLoop (table : List Nat) (pad prev_pad : Nat) : Nat → Nat → Option (List JoyEvent)
  | 0, _ => some []
  | todo + 1, b =>
    match table[b]? with
    | none => none
    | some mask =>
      let button_state := pad &&& mask
      let old_button_state := prev_pad &&& mask
      let reported :=
        if button_state ≠ old_button_state then
          [JoyEvent.SDL_PrivateJoystickButton b
            (if button_state ≠ 0 then ButtonState.SDL_PRESSED
             else ButtonState.SDL_RELEASED)]
        else []
      match buttonLoop table pad prev_pad todo (b + 1) with
      | none => none
      | some rest => some (reported ++ rest)

/-- The macro `CHECK_AXIS(EIXO)` on the raw reading `buttons.EIXO` and the stored
`prev_EIXO`: the new value of `prev_EIXO` and the call made, if any. The axis
passed to `SDL_PrivateJoystickAxis` is the literal `0` of the macro. -/
def CHECK_AXIS (raw : Nat) (prev : Int) : Int × List JoyEvent :=
  let axis : Int := ((raw : Int) - 127) * 127
  let old_axis := prev
  if axis ≠ old_axis then (axis, [JoyEvent.SDL_PrivateJoystickAxis 0 axis])
  else (prev, [])

/-- What the pad library answers during one `PS2_JoystickUpdate`: the states seen by
each of the three calls to `pad_ready`, the device id returned by `padInfoMode`,
the value of `padInfoAct`, and the result of `padRead` (`none` when it returns 0,
otherwise the status it fills in). -/
structure UpdateEnv where
  statesInit : List PadState
  modeCurId : Int
  statesMode : List PadState
  infoAct : Int
  statesRead : List PadState
  read : Option padButtonStatus
  deriving DecidableEq, Repr

/-- The part of `PS2_JoystickUpdate` from the comment `read joystick` on, for the
private data `hw` and the `trace` of the calls made so far. -/
def readPad (m : PadMasks) (joystick : SDL_Joystick) (hw : joystick_hwdata)
    (env : UpdateEnv) (trace : List JoyEvent) : Option (SDL_Joystick × List JoyEvent) :=
  match pad_ready env.statesRead with
  | none => none
  | some false => some ({ joystick with hwdata := some hw }, trace)
  | some true =>
    match env.read with
    | none => some ({ joystick with hwdata := some hw }, trace)
    | some buttons =>
      let pad := 0xffff ^^^ buttons.btns
      let checked : Option (joystick_hwdata × List JoyEvent) :=
        if pad ≠ hw.prev_pad then
          match buttonLoop (button_table m) pad hw.prev_pad joystick.nbuttons.toNat 0 with
          | none => none
          | some reported => some ({ hw with prev_pad := pad }, reported)
        else some (hw, [])
      match checked with
      | none => none
      | some (hw, reported) =>
        let lh := CHECK_AXIS buttons.ljoy_h hw.prev_ljoy_h
        let hw : joystick_hwdata := { hw with prev_ljoy_h := lh.1 }
        let lv := CHECK_AXIS buttons.ljoy_v hw.prev_ljoy_v
        let hw : joystick_hwdata := { hw with prev_ljoy_v := lv.1 }
        let rh := CHECK_AXIS buttons.rjoy_h hw.prev_rjoy_h
        let hw : joystick_hwdata := { hw with prev_rjoy_h := rh.1 }
        let rv := CHECK_AXIS buttons.rjoy_v hw.prev_rjoy_v
        let hw : joystick_hwdata := { hw with prev_rjoy_v := rv.1 }
        some ({ joystick with hwdata := some hw },
          trace ++ reported ++ lh.2 ++ lv.2 ++ rh.2 ++ rv.2)

/-- The function `PS2_JoystickUpdate`. The result is `none` when `joystick->hwdata`
is `NULL`, when a `pad_ready` does not end within the answers given, or when the
button loop leaves `button_table`. -/
def PS2_JoystickUpdate (m : PadMasks) (joystick : SDL_Joystick) (env : UpdateEnv) :
    Option (SDL_Joystick × List JoyEvent) :=
  match joystick.hwdata with
  | none => none
  | some hw =>
    if hw.deviceid = -1 then
      match pad_ready env.statesInit with
      | none => none
      | some false => some (joystick, [])
      | some true =>
        let hw : joystick_hwdata := { hw with deviceid := env.modeCurId }
        match pad_ready env.statesMode with
        | none => none
        | some _ =>
          if env.infoAct ≠ 0 then
            readPad m joystick { hw with rumble := 1 } env
              [JoyEvent.padSetMainMode hw.port hw.slot, JoyEvent.padSetActAlign hw.port hw.slot]
          else
            readPad m joystick hw env [JoyEvent.padSetMainMode hw.port hw.slot]
    else readPad m joystick hw env []

/-- Whether a call reports a button to SDL. -/
def JoyEvent.isButton : JoyEvent → Bool
  | JoyEvent.SDL_PrivateJoystickButton _ _ => true
  | _ => false

/-- Whether a call reports an axis to SDL. -/
def JoyEvent.isAxis : JoyEvent → Bool
  | JoyEvent.SDL_PrivateJoystickAxis _ _ => true
  | _ => false

end PS2Joystick

namespace PSPAudio

/-! ## Properties of `interleave` -/

theorem interleaveLoop_spec (in_L in_R : List Nat) :
    ∀ (todo i : Nat) (out : List Nat),
      i + todo ≤ in_L.length → i + todo ≤ in_R.length → 2 * (i + todo) ≤ out.length →
      ∃ out', interleaveLoop in_L in_R todo i out = some out' ∧
        out'.length = out.length ∧
        (∀ j, i ≤ j → j < i + todo →
          out'[2 * j]? = in_L[j]? ∧ out'[2 * j + 1]? = in_R[j]?) ∧
        (∀ p, p < 2 * i ∨ 2 * (i + todo) ≤ p → out'[p]? = out[p]?) := by
  intro todo
  induction todo with
  | zero =>
    intro i out _ _ _
    exact ⟨out, rfl, rfl, fun j h1 h2 => by omega, fun _ _ => rfl⟩
  | succ todo ih =>
    intro i out hL hR ho
    have hiL : i < in_L.length := by omega
    have hiR : i < in_R.length := by omega
    have hw : i * 2 + 1 < out.length := by omega
    obtain ⟨out', hrun, hlen, hcells, hrest⟩ :=
      ih (i + 1) ((out.set (i * 2) in_L[i]).set (i * 2 + 1) in_R[i])
        (by omega) (by omega) (by simp only [List.length_set]; omega)
    refine ⟨out', ?_, ?_, ?_, ?_⟩
    · simp only [interleaveLoop, List.getElem?_eq_getElem hiL, List.getElem?_eq_getElem hiR,
        if_pos hw]
      exact hrun
    · simpa using hlen
    · intro j h1 h2
      by_cases hj : j = i
      · subst hj
        have e0 := hrest (2 * j) (Or.inl (by omega))
        have e1 := hrest (2 * j + 1) (Or.inl (by omega))
        rw [e0, e1]
        have h2j : 2 * j = j * 2 := by omega
        constructor
        · rw [List.getElem?_set_ne (by omega), h2j, List.getElem?_set_self (by omega),
            List.getElem?_eq_getElem hiL]
        · rw [h2j, List.getElem?_set_self (by simp only [List.length_set]; omega),
            List.getElem?_eq_getElem hiR]
      · exact hcells j (by omega) (by omega)
    · intro p hp
      rw [hrest p (by omega), List.getElem?_set_ne (by omega), List.getElem?_set_ne (by omega)]

/-- C4: for input blocks holding at least `n` cells and an output block holding at
least `2 * n`, `interleave` returns, and afterwards `out[2 * i] = in_L[i]` and
`out[2 * i + 1] = in_R[i]` for every `i < n`, while every output cell at an index
`≥ 2 * n` keeps its old value (and the block its length). When both inputs are the
same mono block each sample is duplicated; the mono block `[10, 20, 30]` gives
exactly `[10, 10, 20, 20, 30, 30]`, whatever the six output cells held before. -/
theorem interleave_correct (in_L in_R out : List Nat) (n : Nat)
    (hL : n ≤ in_L.length) (hR : n ≤ in_R.length) (hout : 2 * n ≤ out.length) :
    (∃ out', interleave in_L in_R out n = some out' ∧
      out'.length = out.length ∧
      (∀ i, i < n → out'[2 * i]? = in_L[i]? ∧ out'[2 * i + 1]? = in_R[i]?) ∧
      (∀ p, 2 * n ≤ p → out'[p]? = out[p]?) ∧
      (in_L = in_R → ∀ i, i < n → out'[2 * i]? = in_L[i]? ∧ out'[2 * i + 1]? = in_L[i]?)) ∧
    (∀ scratch : List Nat, scratch.length = 6 →
      interleave [10, 20, 30] [10, 20, 30] scratch 3 = some [10, 10, 20, 20, 30, 30]) := by
  constructor
  · obtain ⟨out', hrun, hlen, hcells, hrest⟩ :=
      interleaveLoop_spec in_L in_R n 0 out (by omega) (by omega) (by omega)
    refine ⟨out', hrun, hlen, fun i hi => hcells i (by omega) (by omega),
      fun p hp => hrest p (Or.inr (by omega)), fun hsame i hi => ?_⟩
    have := hcells i (by omega) (by omega)
    rw [← hsame] at this
    exact this
  · intro scratch hlen
    match scratch, hlen with
    | [_, _, _, _, _, _], _ => rfl

/-- Witness of C4: stereo inputs `[10, 20, 30]` and `[1, 2, 3]` into a block of seven
cells. -/
theorem interleave_correct_witness :
    ∃ out', interleave [10, 20, 30] [1, 2, 3] [0, 0, 0, 0, 0, 0, 7] 3 = some out' ∧
      out'.length = 7 :=
  (interleave_correct [10, 20, 30] [1, 2, 3] [0, 0, 0, 0, 0, 0, 7] 3
    (by decide) (by decide) (by decide)).1.imp fun _ h => ⟨h.1, h.2.1⟩

/-! ## `PSPAUDIO_OpenDevice`: the five outcomes -/

theorem OpenDevice_hiddenAllocFail (N : Nat) (this : SDL_AudioDevice) (env : OpenEnv)
    (halloc : env.hiddenAlloc = false) :
    PSPAUDIO_OpenDevice N this env =
      ({ this with hidden := none }, [], some OpenError.OutOfMemory) := by
  unfold PSPAUDIO_OpenDevice
  rw [if_pos halloc]

theorem OpenDevice_badFormat (N : Nat) (this : SDL_AudioDevice) (env : OpenEnv)
    (halloc : env.hiddenAlloc = true) (hfmt : ¬ formatAccepted this.spec.format) :
    PSPAUDIO_OpenDevice N this env =
      (⟨this.spec, some
          { channel := -1, rawbuf := none, mixbufs := List.replicate N none, next_buffer := 0 }⟩,
        [], some OpenError.UnsupportedFormat) := by
  unfold PSPAUDIO_OpenDevice
  rw [if_neg (by simp [halloc])]
  split
  · exact absurd (Or.inl ‹_›) hfmt
  · exact absurd (Or.inr ‹_›) hfmt
  · rfl

theorem OpenDevice_rawAllocFail (N : Nat) (this : SDL_AudioDevice) (env : OpenEnv)
    (halloc : env.hiddenAlloc = true) (hfmt : formatAccepted this.spec.format)
    (hraw : env.rawAlloc = none) :
    PSPAUDIO_OpenDevice N this env =
      (⟨resolvedSpec this.spec, some
          { channel := 0, rawbuf := none, mixbufs := List.replicate N none, next_buffer := 0 }⟩,
        [Event.memalign 64 ((resolvedSpec this.spec).size * N % 2 ^ 32) false],
        some OpenError.MixBufferAllocFailed) := by
  unfold PSPAUDIO_OpenDevice
  rw [if_neg (by simp [halloc])]
  rcases hfmt with h | h <;> simp only [h, hraw] <;> rfl

theorem OpenDevice_reserveFail (N : Nat) (this : SDL_AudioDevice) (env : OpenEnv)
    (g : Nat → Nat)
    (halloc : env.hiddenAlloc = true) (hfmt : formatAccepted this.spec.format)
    (hraw : env.rawAlloc = some g) (hret : env.reserveRet < 0) :
    PSPAUDIO_OpenDevice N this env =
      (⟨resolvedSpec this.spec, some
          { channel := env.reserveRet, rawbuf := none, mixbufs := List.replicate N none,
            next_buffer := 0 }⟩,
        [Event.memalign 64 ((resolvedSpec this.spec).size * N % 2 ^ 32) true,
          reserveCall (resolvedSpec this.spec) env.reserveRet, Event.free],
        some OpenError.ChannelUnavailable) := by
  unfold PSPAUDIO_OpenDevice
  rw [if_neg (by simp [halloc])]
  rcases hfmt with h | h <;> simp only [h, hraw, if_pos hret] <;> rfl

theorem OpenDevice_success (N : Nat) (this : SDL_AudioDevice) (env : OpenEnv)
    (g : Nat → Nat)
    (halloc : env.hiddenAlloc = true) (hfmt : formatAccepted this.spec.format)
    (hraw : env.rawAlloc = some g) (hret : 0 ≤ env.reserveRet) :
    PSPAUDIO_OpenDevice N this env =
      (⟨resolvedSpec this.spec, some
          { channel := env.reserveRet,
            rawbuf := some
              (memset (freshBlock ((resolvedSpec this.spec).size * N % 2 ^ 32) g) 0
                ((resolvedSpec this.spec).size * N % 2 ^ 32)),
            mixbufs := (List.range N).map fun i =>
              some (i * (resolvedSpec this.spec).size % 2 ^ 32),
            next_buffer := 0 }⟩,
        [Event.memalign 64 ((resolvedSpec this.spec).size * N % 2 ^ 32) true,
          reserveCall (resolvedSpec this.spec) env.reserveRet],
        none) := by
  unfold PSPAUDIO_OpenDevice
  rw [if_neg (by simp [halloc])]
  rcases hfmt with h | h <;> simp only [h, hraw, if_neg (not_lt.mpr hret)] <;> rfl

/-! ## Format validation and the sample count -/

/-- C1: once the private data is allocated, a requested format whose low 8 bits are
8 or 16 is resolved to `AUDIO_S16LSB` (and the call does not fail with
`UnsupportedFormat`); for every other bit width the call fails with
`UnsupportedFormat`, having made no allocator or hardware call at all: no mixing
buffer is allocated (`rawbuf` is `NULL`), no channel is reserved (the handle is
`-1`), and the spec is left as requested. -/
theorem OpenDevice_format_validation (N : Nat) (this : SDL_AudioDevice) (env : OpenEnv)
    (halloc : env.hiddenAlloc = true) :
    (formatAccepted this.spec.format →
      (PSPAUDIO_OpenDevice N this env).1.spec.format = AUDIO_S16LSB ∧
      (PSPAUDIO_OpenDevice N this env).2.2 ≠ some OpenError.UnsupportedFormat) ∧
    (¬ formatAccepted this.spec.format →
      (PSPAUDIO_OpenDevice N this env).2.2 = some OpenError.UnsupportedFormat ∧
      (PSPAUDIO_OpenDevice N this env).2.1 = [] ∧
      (PSPAUDIO_OpenDevice N this env).1.spec = this.spec ∧
      ∃ h, (PSPAUDIO_OpenDevice N this env).1.hidden = some h ∧ h.rawbuf = none ∧
        h.channel = -1) := by
  constructor
  · intro hfmt
    cases hraw : env.rawAlloc with
    | none =>
      rw [OpenDevice_rawAllocFail N this env halloc hfmt hraw]
      exact ⟨rfl, by simp⟩
    | some g =>
      by_cases hret : env.reserveRet < 0
      · rw [OpenDevice_reserveFail N this env g halloc hfmt hraw hret]
        exact ⟨rfl, by simp⟩
      · rw [OpenDevice_success N this env g halloc hfmt hraw (not_lt.mp hret)]
        exact ⟨rfl, by simp⟩
  · intro hfmt
    rw [OpenDevice_badFormat N this env halloc hfmt]
    exact ⟨rfl, rfl, rfl, _, rfl, rfl, rfl⟩

/-- Witness of C1: a 16-bit request and a working allocator. -/
theorem OpenDevice_format_validation_witness :
    (PSPAUDIO_OpenDevice 2 ⟨⟨44100, 0x8010, 2, 100, 0⟩, none⟩
      ⟨true, some fun _ => 0, 3⟩).1.spec.format = AUDIO_S16LSB :=
  ((OpenDevice_format_validation 2 ⟨⟨44100, 0x8010, 2, 100, 0⟩, none⟩
    ⟨true, some fun _ => 0, 3⟩ rfl).1 (by decide)).1

theorem OpenDevice_spec (N : Nat) (this : SDL_AudioDevice) (env : OpenEnv)
    (halloc : env.hiddenAlloc = true) (hfmt : formatAccepted this.spec.format) :
    (PSPAUDIO_OpenDevice N this env).1.spec = resolvedSpec this.spec := by
  cases hraw : env.rawAlloc with
  | none => rw [OpenDevice_rawAllocFail N this env halloc hfmt hraw]
  | some g =>
    by_cases hret : env.reserveRet < 0
    · rw [OpenDevice_reserveFail N this env g halloc hfmt hraw hret]
    · rw [OpenDevice_success N this env g halloc hfmt hraw (not_lt.mp hret)]

/-- Counterexample to C2 as stated: a request of 65535 samples is resolved to 0
samples, which is not `≥` the request (the rounded value 65536 does not fit the
16-bit field). -/
theorem OpenDevice_samples_wrap :
    (PSPAUDIO_OpenDevice 2 ⟨⟨44100, 16, 2, 65535, 0⟩, none⟩
      ⟨true, none, 0⟩).1.spec.samples = 0 ∧
    ¬ (65535 ≤ (PSPAUDIO_OpenDevice 2 ⟨⟨44100, 16, 2, 65535, 0⟩, none⟩
      ⟨true, none, 0⟩).1.spec.samples) := by
  decide

/-- C2, amended: after format validation the resolved sample count is always a
multiple of 64, and for every request of at most 65472 samples (those whose
rounded value fits the 16-bit field) it is the smallest multiple of 64 that is
greater than or equal to the request. -/
theorem OpenDevice_samples_rounded (N : Nat) (this : SDL_AudioDevice) (env : OpenEnv)
    (halloc : env.hiddenAlloc = true) (hfmt : formatAccepted this.spec.format) :
    64 ∣ (PSPAUDIO_OpenDevice N this env).1.spec.samples ∧
    (this.spec.samples ≤ 65472 →
      this.spec.samples ≤ (PSPAUDIO_OpenDevice N this env).1.spec.samples ∧
      ∀ m, 64 ∣ m → this.spec.samples ≤ m →
        (PSPAUDIO_OpenDevice N this env).1.spec.samples ≤ m) := by
  rw [OpenDevice_spec N this env halloc hfmt]
  simp only [resolvedSpec, SDL_CalculateAudioSpec, PSP_AUDIO_SAMPLE_ALIGN]
  refine ⟨?_, fun hs => ⟨?_, fun m hm hle => ?_⟩⟩
  · omega
  · omega
  · obtain ⟨c, rfl⟩ := hm
    omega

/-- Witness of C2, amended: a request of 100 samples. -/
theorem OpenDevice_samples_rounded_witness :
    64 ∣ (PSPAUDIO_OpenDevice 2 ⟨⟨22050, 16, 1, 100, 0⟩, none⟩
      ⟨true, none, 0⟩).1.spec.samples :=
  (OpenDevice_samples_rounded 2 ⟨⟨22050, 16, 1, 100, 0⟩, none⟩ ⟨true, none, 0⟩
    rfl (by decide)).1

theorem OpenDevice_cases (N : Nat) (this : SDL_AudioDevice) (env : OpenEnv)
    (P : SDL_AudioDevice × List Event × Option OpenError → Prop)
    (h1 : env.hiddenAlloc = false → P ({ this with hidden := none }, [], some OpenError.OutOfMemory))
    (h2 : env.hiddenAlloc = true → ¬ formatAccepted this.spec.format →
      P (⟨this.spec, some
          { channel := -1, rawbuf := none, mixbufs := List.replicate N none, next_buffer := 0 }⟩,
        [], some OpenError.UnsupportedFormat))
    (h3 : env.hiddenAlloc = true → formatAccepted this.spec.format → env.rawAlloc = none →
      P (⟨resolvedSpec this.spec, some
          { channel := 0, rawbuf := none, mixbufs := List.replicate N none, next_buffer := 0 }⟩,
        [Event.memalign 64 ((resolvedSpec this.spec).size * N % 2 ^ 32) false],
        some OpenError.MixBufferAllocFailed))
    (h4 : ∀ g, env.hiddenAlloc = true → formatAccepted this.spec.format →
      env.rawAlloc = some g → env.reserveRet < 0 →
      P (⟨resolvedSpec this.spec, some
          { channel := env.reserveRet, rawbuf := none, mixbufs := List.replicate N none,
            next_buffer := 0 }⟩,
        [Event.memalign 64 ((resolvedSpec this.spec).size * N % 2 ^ 32) true,
          reserveCall (resolvedSpec this.spec) env.reserveRet, Event.free],
        some OpenError.ChannelUnavailable))
    (h5 : ∀ g, env.hiddenAlloc = true → formatAccepted this.spec.format →
      env.rawAlloc = some g → 0 ≤ env.reserveRet →
      P (⟨resolvedSpec this.spec, some
          { channel := env.reserveRet,
            rawbuf := some
              (memset (freshBlock ((resolvedSpec this.spec).size * N % 2 ^ 32) g) 0
                ((resolvedSpec this.spec).size * N % 2 ^ 32)),
            mixbufs := (List.range N).map fun i =>
              some (i * (resolvedSpec this.spec).size % 2 ^ 32),
            next_buffer := 0 }⟩,
        [Event.memalign 64 ((resolvedSpec this.spec).size * N % 2 ^ 32) true,
          reserveCall (resolvedSpec this.spec) env.reserveRet],
        none)) :
    P (PSPAUDIO_OpenDevice N this env) := by
  cases halloc : env.hiddenAlloc with
  | false =>
    rw [OpenDevice_hiddenAllocFail N this env halloc]
    exact h1 halloc
  | true =>
    by_cases hfmt : formatAccepted this.spec.format
    · cases hraw : env.rawAlloc with
      | none =>
        rw [OpenDevice_rawAllocFail N this env halloc hfmt hraw]
        exact h3 halloc hfmt hraw
      | some g =>
        by_cases hret : env.reserveRet < 0
        · rw [OpenDevice_reserveFail N this env g halloc hfmt hraw hret]
          exact h4 g halloc hfmt hraw hret
        · rw [OpenDevice_success N this env g halloc hfmt hraw (not_lt.mp hret)]
          exact h5 g halloc hfmt hraw (not_lt.mp hret)
    · rw [OpenDevice_badFormat N this env halloc hfmt]
      exact h2 halloc hfmt

theorem hwAfter_reserveCall (spec : SDL_AudioSpec) (ret : Int) (held : Option HwChannel) :
    hwStep held (reserveCall spec ret) =
      if 0 ≤ ret then
        some (if spec.freq = 44100 then HwChannel.fixed ret else HwChannel.src)
      else held := by
  unfold reserveCall
  split <;> rfl

theorem reserveCall_isReserve (spec : SDL_AudioSpec) (ret : Int) :
    (reserveCall spec ret).isReserve = true := by
  unfold reserveCall
  split <;> rfl

/-! ## Failure paths of `PSPAUDIO_OpenDevice` and channel selection -/

/-- C6: whenever `PSPAUDIO_OpenDevice` returns an error, the mixing region is `NULL`
in the resulting private data and no hardware channel is held after the calls
made. When the channel reservation fails the calls are exactly the allocation of
the region, the failed reservation and the `free` of the region; when the
allocation of the region fails that failed `memalign` is the only call, so no
reservation is attempted; on the other two errors no call is made at all. -/
theorem OpenDevice_failure_rollback (N : Nat) (this : SDL_AudioDevice) (env : OpenEnv)
    (err : OpenError) (herr : (PSPAUDIO_OpenDevice N this env).2.2 = some err) :
    (∀ h, (PSPAUDIO_OpenDevice N this env).1.hidden = some h → h.rawbuf = none) ∧
    hwAfter none (PSPAUDIO_OpenDevice N this env).2.1 = none ∧
    (err = OpenError.ChannelUnavailable →
      ∃ len rsv, rsv.isReserve = true ∧
        (PSPAUDIO_OpenDevice N this env).2.1 = [Event.memalign 64 len true, rsv, Event.free]) ∧
    (err = OpenError.MixBufferAllocFailed →
      ∃ len, (PSPAUDIO_OpenDevice N this env).2.1 = [Event.memalign 64 len false]) ∧
    (err ≠ OpenError.ChannelUnavailable → err ≠ OpenError.MixBufferAllocFailed →
      (PSPAUDIO_OpenDevice N this env).2.1 = []) := by
  revert herr
  refine OpenDevice_cases N this env (fun r => r.2.2 = some err →
    (∀ h, r.1.hidden = some h → h.rawbuf = none) ∧
    hwAfter none r.2.1 = none ∧
    (err = OpenError.ChannelUnavailable →
      ∃ len rsv, rsv.isReserve = true ∧ r.2.1 = [Event.memalign 64 len true, rsv, Event.free]) ∧
    (err = OpenError.MixBufferAllocFailed → ∃ len, r.2.1 = [Event.memalign 64 len false]) ∧
    (err ≠ OpenError.ChannelUnavailable → err ≠ OpenError.MixBufferAllocFailed → r.2.1 = []))
    ?_ ?_ ?_ ?_ ?_
  · intro _ herr
    simp only [Option.some.injEq] at herr
    subst herr
    simp [hwAfter]
  · intro _ _ herr
    simp only [Option.some.injEq] at herr
    subst herr
    simp [hwAfter]
  · intro _ _ _ herr
    simp only [Option.some.injEq] at herr
    subst herr
    simp [hwAfter, hwStep]
  · intro g _ _ _ hret herr
    simp only [Option.some.injEq] at herr
    subst herr
    refine ⟨by simp, ?_, fun _ => ⟨_, _, reserveCall_isReserve _ _, rfl⟩, by simp, by simp⟩
    show hwStep (hwStep (hwStep none _) (reserveCall _ _)) Event.free = none
    rw [hwAfter_reserveCall, if_neg (not_le.mpr hret)]
    rfl
  · intro g _ _ _ _ herr
    simp at herr

/-- Witness of C6: the hardware refuses the channel (`-1`). -/
theorem OpenDevice_failure_rollback_witness :
    hwAfter none (PSPAUDIO_OpenDevice 2 ⟨⟨44100, 16, 2, 64, 0⟩, none⟩
      ⟨true, some fun _ => 7, -1⟩).2.1 = none :=
  (OpenDevice_failure_rollback 2 ⟨⟨44100, 16, 2, 64, 0⟩, none⟩ ⟨true, some fun _ => 7, -1⟩
    OpenError.ChannelUnavailable (by decide)).2.1

/-- C5 at the failing input: after an open that fails because the mixing region
cannot be allocated, the handle still holds the `0` left by the `memset` of the
private data, so `PSPAUDIO_CloseDevice` releases fixed channel 0 and rewrites the
handle; it is not a no-op. -/
theorem CloseDevice_after_failed_alloc :
    (PSPAUDIO_OpenDevice 2 ⟨⟨44100, 16, 2, 64, 0⟩, none⟩ ⟨true, none, 0⟩).2.2 =
      some OpenError.MixBufferAllocFailed ∧
    PSPAUDIO_CloseDevice (PSPAUDIO_OpenDevice 2 ⟨⟨44100, 16, 2, 64, 0⟩, none⟩ ⟨true, none, 0⟩).1 =
      some (⟨⟨44100, AUDIO_S16LSB, 2, 64, 256⟩, some ⟨-1, none, [none, none], 0⟩⟩,
        [Event.sceAudioChRelease 0]) ∧
    PSPAUDIO_CloseDevice (PSPAUDIO_OpenDevice 2 ⟨⟨44100, 16, 2, 64, 0⟩, none⟩ ⟨true, none, 0⟩).1 ≠
      some ((PSPAUDIO_OpenDevice 2 ⟨⟨44100, 16, 2, 64, 0⟩, none⟩ ⟨true, none, 0⟩).1, []) := by
  decide

theorem OpenDevice_handle_iff_held (N : Nat) (dev : SDL_AudioDevice) (env : OpenEnv)
    (hway : (PSPAUDIO_OpenDevice N dev env).2.2 ≠ some OpenError.MixBufferAllocFailed) :
    ∀ h, (PSPAUDIO_OpenDevice N dev env).1.hidden = some h →
      (0 ≤ h.channel ↔ hwAfter none (PSPAUDIO_OpenDevice N dev env).2.1 ≠ none) := by
  revert hway
  refine OpenDevice_cases N dev env (fun r => r.2.2 ≠ some OpenError.MixBufferAllocFailed →
    ∀ h, r.1.hidden = some h → (0 ≤ h.channel ↔ hwAfter none r.2.1 ≠ none)) ?_ ?_ ?_ ?_ ?_
  · intro _ _ h hh
    simp at hh
  · intro _ _ _ h hh
    simp only [Option.some.injEq] at hh
    subst hh
    simp [hwAfter]
  · intro _ _ _ hway
    exact absurd rfl hway
  · intro g _ _ _ hret _ h hh
    simp only [Option.some.injEq] at hh
    subst hh
    have e : hwAfter none
        [Event.memalign 64 ((resolvedSpec dev.spec).size * N % 2 ^ 32) true,
          reserveCall (resolvedSpec dev.spec) env.reserveRet, Event.free] = none := by
      show hwStep (hwStep (hwStep none _) (reserveCall _ _)) Event.free = none
      rw [hwAfter_reserveCall, if_neg (not_le.mpr hret)]
      rfl
    simp only [e, ne_eq, not_true_eq_false, iff_false, not_le]
    exact hret
  · intro g _ _ _ hret _ h hh
    simp only [Option.some.injEq] at hh
    subst hh
    have e : hwAfter none
        [Event.memalign 64 ((resolvedSpec dev.spec).size * N % 2 ^ 32) true,
          reserveCall (resolvedSpec dev.spec) env.reserveRet] ≠ none := by
      show hwStep (hwStep none _) (reserveCall _ _) ≠ none
      rw [hwAfter_reserveCall, if_pos hret]
      simp
    simp only [e, ne_eq, not_false_eq_true, iff_true]
    exact hret

/-- C7 at the failing input: after an open that fails because the mixing region
cannot be allocated, the stored handle is `0`, which is `≥ 0`, while no hardware
channel is held. -/
theorem handle_held_after_failed_alloc :
    (PSPAUDIO_OpenDevice 2 ⟨⟨44100, 16, 2, 64, 0⟩, none⟩ ⟨true, none, 0⟩).1.hidden =
      some ⟨0, none, [none, none], 0⟩ ∧
    hwAfter none (PSPAUDIO_OpenDevice 2 ⟨⟨44100, 16, 2, 64, 0⟩, none⟩ ⟨true, none, 0⟩).2.1 =
      none := by
  decide

/-- C8: when the open reaches the channel reservation (private data and mixing
region allocated, format accepted), it makes exactly one reservation call. At
44100 Hz that call reserves a fixed channel (`PSP_AUDIO_NEXT_CHANNEL`) sized to the
resolved sample count, in mono format when `channels = 1` and in stereo format
otherwise; at every other frequency it reserves the converting channel with the
resolved sample count, the requested frequency and 2 output channels. When the
call succeeds the hardware holds a channel of that kind and of no other. -/
theorem OpenDevice_channel_selection (N : Nat) (this : SDL_AudioDevice) (env : OpenEnv)
    (g : Nat → Nat) (halloc : env.hiddenAlloc = true)
    (hfmt : formatAccepted this.spec.format) (hraw : env.rawAlloc = some g) :
    (this.spec.freq = 44100 →
      (PSPAUDIO_OpenDevice N this env).2.1.filter Event.isReserve =
        [Event.sceAudioChReserve PSP_AUDIO_NEXT_CHANNEL
          (PSPAUDIO_OpenDevice N this env).1.spec.samples
          (if this.spec.channels = 1 then PspAudioFormats.PSP_AUDIO_FORMAT_MONO
           else PspAudioFormats.PSP_AUDIO_FORMAT_STEREO) env.reserveRet] ∧
      (0 ≤ env.reserveRet → hwAfter none (PSPAUDIO_OpenDevice N this env).2.1 =
        some (HwChannel.fixed env.reserveRet))) ∧
    (this.spec.freq ≠ 44100 →
      (PSPAUDIO_OpenDevice N this env).2.1.filter Event.isReserve =
        [Event.sceAudioSRCChReserve (PSPAUDIO_OpenDevice N this env).1.spec.samples
          this.spec.freq 2 env.reserveRet] ∧
      (0 ≤ env.reserveRet → hwAfter none (PSPAUDIO_OpenDevice N this env).2.1 =
        some HwChannel.src)) := by
  have hfreq : (resolvedSpec this.spec).freq = this.spec.freq := rfl
  have hch : (resolvedSpec this.spec).channels = this.spec.channels := rfl
  by_cases hret : env.reserveRet < 0
  · rw [OpenDevice_reserveFail N this env g halloc hfmt hraw hret]
    constructor
    · intro h44
      refine ⟨?_, fun h0 => absurd h0 (not_le.mpr hret)⟩
      simp [List.filter, Event.isReserve, reserveCall, hfreq, hch, h44]
    · intro h44
      refine ⟨?_, fun h0 => absurd h0 (not_le.mpr hret)⟩
      simp [List.filter, Event.isReserve, reserveCall, hfreq, hch, h44]
  · have hret' : 0 ≤ env.reserveRet := not_lt.mp hret
    rw [OpenDevice_success N this env g halloc hfmt hraw hret']
    constructor
    · intro h44
      refine ⟨?_, fun _ => ?_⟩
      · simp [List.filter, Event.isReserve, reserveCall, hfreq, hch, h44]
      · show hwStep (hwStep none _) (reserveCall _ _) = _
        rw [hwAfter_reserveCall, if_pos hret', hfreq, if_pos h44]
    · intro h44
      refine ⟨?_, fun _ => ?_⟩
      · simp [List.filter, Event.isReserve, reserveCall, hfreq, hch, h44]
      · show hwStep (hwStep none _) (reserveCall _ _) = _
        rw [hwAfter_reserveCall, if_pos hret', hfreq, if_neg h44]

/-- Witness of C8: a mono request at 22050 Hz takes the converting channel. -/
theorem OpenDevice_channel_selection_witness :
    hwAfter none (PSPAUDIO_OpenDevice 2 ⟨⟨22050, 16, 1, 100, 0⟩, none⟩
      ⟨true, some fun _ => 7, 0⟩).2.1 = some HwChannel.src :=
  ((OpenDevice_channel_selection 2 ⟨⟨22050, 16, 1, 100, 0⟩, none⟩ ⟨true, some fun _ => 7, 0⟩
    (fun _ => 7) rfl (by decide) rfl).2 (by decide)).2 (by decide)

/-! ## `PSPAUDIO_CloseDevice` -/

theorem CloseDevice_eq (this : SDL_AudioDevice) (h : SDL_PrivateAudioData)
    (hh : this.hidden = some h) :
    PSPAUDIO_CloseDevice this =
      some (⟨this.spec, some
          { h with channel := if 0 ≤ h.channel then -1 else h.channel, rawbuf := none }⟩,
        (if 0 ≤ h.channel then
            [if this.spec.freq ≠ 44100 then Event.sceAudioSRCChRelease
             else Event.sceAudioChRelease h.channel]
          else []) ++
          (if h.rawbuf ≠ none then [Event.free] else [])) := by
  unfold PSPAUDIO_CloseDevice
  rw [hh]
  obtain ⟨channel, rawbuf, mixbufs, next_buffer⟩ := h
  by_cases hc : 0 ≤ channel <;> by_cases hr : rawbuf = none <;>
    simp [hc, hr]

theorem CloseDevice_noop (this : SDL_AudioDevice) (h : SDL_PrivateAudioData)
    (hh : this.hidden = some h) (hc : h.channel < 0) (hr : h.rawbuf = none) :
    PSPAUDIO_CloseDevice this = some (this, []) := by
  rw [CloseDevice_eq this h hh, if_neg (not_le.mpr hc), if_neg (not_le.mpr hc)]
  obtain ⟨spec, hidden⟩ := this
  obtain ⟨channel, rawbuf, mixbufs, next_buffer⟩ := h
  simp only at hh hr
  subst hh hr
  simp

theorem CloseDevice_after_other_failures (N : Nat) (dev : SDL_AudioDevice) (env : OpenEnv)
    (err : OpenError) (herr : (PSPAUDIO_OpenDevice N dev env).2.2 = some err)
    (hway : err = OpenError.UnsupportedFormat ∨ err = OpenError.ChannelUnavailable) :
    PSPAUDIO_CloseDevice (PSPAUDIO_OpenDevice N dev env).1 =
      some ((PSPAUDIO_OpenDevice N dev env).1, []) := by
  revert herr
  refine OpenDevice_cases N dev env (fun r => r.2.2 = some err →
    PSPAUDIO_CloseDevice r.1 = some (r.1, [])) ?_ ?_ ?_ ?_ ?_
  · intro _ h
    simp only [Option.some.injEq] at h
    subst h
    simp at hway
  · intro _ _ _
    exact CloseDevice_noop _ _ rfl (show (-1 : Int) < 0 by decide) rfl
  · intro _ _ _ h
    simp only [Option.some.injEq] at h
    subst h
    simp at hway
  · intro g _ _ _ hret _
    exact CloseDevice_noop _ _ rfl hret rfl
  · intro g _ _ _ _ h
    simp at h

/-- C10: on a device with private data, `PSPAUDIO_CloseDevice` returns; if the handle
is `≥ 0` it makes exactly one release call, `sceAudioSRCChRelease` when the
frequency is not 44100 and `sceAudioChRelease` of that handle otherwise, and sets
the handle to `-1` (a negative handle is left alone and nothing is released); if
the region is not `NULL` it is freed once, and the pointer is `NULL` afterwards
in every case; a second close makes no call and leaves the state unchanged. On the
device of a successful open the release goes through the path the open reserved
on: the hardware holds a channel after the open and none after the close. -/
theorem CloseDevice_releases (this : SDL_AudioDevice) (h : SDL_PrivateAudioData)
    (hh : this.hidden = some h) :
    (∃ this' h' trace, PSPAUDIO_CloseDevice this = some (this', trace) ∧
      this'.spec = this.spec ∧ this'.hidden = some h' ∧
      (0 ≤ h.channel →
        trace.filter Event.isRelease =
          [if this.spec.freq ≠ 44100 then Event.sceAudioSRCChRelease
           else Event.sceAudioChRelease h.channel] ∧
        h'.channel = -1) ∧
      (h.channel < 0 → trace.filter Event.isRelease = [] ∧ h'.channel = h.channel) ∧
      (h.rawbuf ≠ none → trace.count Event.free = 1) ∧
      (h.rawbuf = none → trace.count Event.free = 0) ∧
      h'.rawbuf = none ∧ h'.mixbufs = h.mixbufs ∧ h'.next_buffer = h.next_buffer ∧
      PSPAUDIO_CloseDevice this' = some (this', [])) ∧
    (∀ (N : Nat) (dev : SDL_AudioDevice) (env : OpenEnv),
      (PSPAUDIO_OpenDevice N dev env).2.2 = none →
      ∃ closed trace, PSPAUDIO_CloseDevice (PSPAUDIO_OpenDevice N dev env).1 =
          some (closed, trace) ∧
        hwAfter none (PSPAUDIO_OpenDevice N dev env).2.1 ≠ none ∧
        hwAfter (hwAfter none (PSPAUDIO_OpenDevice N dev env).2.1) trace = none) := by
  constructor
  · refine ⟨_, _, _, CloseDevice_eq this h hh, rfl, rfl, ?_, ?_, ?_, ?_, rfl, rfl, rfl, ?_⟩
    · intro hc
      rw [if_pos hc, if_pos hc]
      refine ⟨?_, rfl⟩
      by_cases hr : h.rawbuf = none <;> by_cases hf : this.spec.freq = 44100 <;>
        simp [hr, hf, List.filter, Event.isRelease]
    · intro hc
      rw [if_neg (not_le.mpr hc), if_neg (not_le.mpr hc)]
      refine ⟨?_, rfl⟩
      by_cases hr : h.rawbuf = none <;> simp [hr, List.filter, Event.isRelease]
    · intro hr
      by_cases hc : 0 ≤ h.channel <;> by_cases hf : this.spec.freq = 44100 <;>
        simp [hr, hc, hf]
    · intro hr
      by_cases hc : 0 ≤ h.channel <;> by_cases hf : this.spec.freq = 44100 <;>
        simp [hr, hc, hf]
    · rw [CloseDevice_eq _ _ rfl]
      by_cases hc : 0 ≤ h.channel <;> simp [hc]
  · intro N dev env
    refine OpenDevice_cases N dev env (fun r => r.2.2 = none →
      ∃ closed trace, PSPAUDIO_CloseDevice r.1 = some (closed, trace) ∧
        hwAfter none r.2.1 ≠ none ∧ hwAfter (hwAfter none r.2.1) trace = none)
      ?_ ?_ ?_ ?_ ?_
    · intro _ h; simp at h
    · intro _ _ h; simp at h
    · intro _ _ _ h; simp at h
    · intro _ _ _ _ _ h; simp at h
    · intro g _ _ _ hret _
      refine ⟨_, _, CloseDevice_eq _ _ rfl, ?_, ?_⟩
      · show hwStep (hwStep none _) (reserveCall _ _) ≠ none
        rw [hwAfter_reserveCall, if_pos hret]
        simp
      · have e : hwAfter none
            [Event.memalign 64 ((resolvedSpec dev.spec).size * N % 2 ^ 32) true,
              reserveCall (resolvedSpec dev.spec) env.reserveRet] =
            some (if (resolvedSpec dev.spec).freq = 44100 then HwChannel.fixed env.reserveRet
              else HwChannel.src) := by
          show hwStep (hwStep none _) (reserveCall _ _) = _
          rw [hwAfter_reserveCall, if_pos hret]
        simp only [e, if_pos hret]
        by_cases hf : (resolvedSpec dev.spec).freq = 44100 <;>
          simp [hf, hwAfter, hwStep, memset]

/-- Witness of C10: a device holding fixed channel 3 and a region of four bytes. -/
theorem CloseDevice_releases_witness :
    ∃ this' trace,
      PSPAUDIO_CloseDevice ⟨⟨44100, AUDIO_S16LSB, 2, 64, 256⟩,
        some ⟨3, some [0, 0, 0, 0], [some 0, some 2], 1⟩⟩ = some (this', trace) ∧
      PSPAUDIO_CloseDevice this' = some (this', []) :=
  (CloseDevice_releases ⟨⟨44100, AUDIO_S16LSB, 2, 64, 256⟩,
    some ⟨3, some [0, 0, 0, 0], [some 0, some 2], 1⟩⟩ _ rfl).1.elim
    fun this' h => h.elim fun _ h => h.elim fun trace h => ⟨this', trace, h.1, h.2.2.2.2.2.2.2.2.2.2⟩

/-! ## `PSPAUDIO_PlayDevice` -/

theorem view16_length : ∀ l : List Nat, (view16 l).length = l.length / 2
  | [] => by simp [view16]
  | [_] => by simp [view16]
  | _ :: _ :: rest => by
    simp only [view16, List.length_cons, view16_length rest]
    omega

theorem cellsAt_length (bytes : List Nat) (off : Nat) :
    (cellsAt (some bytes) (some off)).length = (bytes.length - off) / 2 := by
  simp [cellsAt, view16_length]

theorem freshBlock_length (len : Nat) (g : Nat → Nat) : (freshBlock len g).length = len := by
  simp [freshBlock]

theorem PlayDevice_native (N : Nat) (this : SDL_AudioDevice) (h : SDL_PrivateAudioData)
    (scratch : Option (Nat → Nat)) (hh : this.hidden = some h)
    (hf : this.spec.freq = 44100) :
    PSPAUDIO_PlayDevice N this scratch =
      some (⟨this.spec, some { h with next_buffer := (h.next_buffer + 1) % N }⟩,
        [Event.sceAudioOutputPannedBlocking h.channel PSP_AUDIO_VOLUME_MAX
          PSP_AUDIO_VOLUME_MAX (PSPAUDIO_GetDeviceBuf h)]) := by
  unfold PSPAUDIO_PlayDevice
  simp [hh, hf, PSPAUDIO_GetDeviceBuf]

theorem PlayDevice_src_stereo (N : Nat) (this : SDL_AudioDevice) (h : SDL_PrivateAudioData)
    (scratch : Option (Nat → Nat)) (hh : this.hidden = some h)
    (hf : this.spec.freq ≠ 44100) (hc : this.spec.channels ≠ 1) :
    PSPAUDIO_PlayDevice N this scratch =
      some (⟨this.spec, some { h with next_buffer := (h.next_buffer + 1) % N }⟩,
        [Event.sceAudioSRCOutputBlocking PSP_AUDIO_VOLUME_MAX
          (OutBuf.mix (PSPAUDIO_GetDeviceBuf h))]) := by
  unfold PSPAUDIO_PlayDevice
  simp [hh, hf, hc, PSPAUDIO_GetDeviceBuf]

theorem PlayDevice_src_mono (N : Nat) (this : SDL_AudioDevice) (h : SDL_PrivateAudioData)
    (scratch : Option (Nat → Nat)) (hh : this.hidden = some h)
    (hf : this.spec.freq ≠ 44100) (hc : this.spec.channels = 1) :
    PSPAUDIO_PlayDevice N this scratch =
      (interleave (cellsAt h.rawbuf (PSPAUDIO_GetDeviceBuf h))
          (cellsAt h.rawbuf (PSPAUDIO_GetDeviceBuf h))
          ((scratch.map fun g => freshBlock (4 * this.spec.samples / 2) g).getD [])
          this.spec.samples).map fun out =>
        (⟨this.spec, some { h with next_buffer := (h.next_buffer + 1) % N }⟩,
          [Event.SDL_malloc (4 * this.spec.samples) scratch.isSome,
           Event.sceAudioSRCOutputBlocking PSP_AUDIO_VOLUME_MAX
             (OutBuf.scratch (scratch.map fun _ => out)),
           Event.SDL_free]) := by
  unfold PSPAUDIO_PlayDevice
  simp only [hh, hf, hc, PSPAUDIO_GetDeviceBuf, ne_eq, not_false_eq_true, if_true]
  cases interleave _ _ _ _ with
  | none => simp
  | some out => simp; rfl

theorem PlayDevice_next (N : Nat) (this this' : SDL_AudioDevice) (h : SDL_PrivateAudioData)
    (scratch : Option (Nat → Nat)) (trace : List Event) (hh : this.hidden = some h)
    (hplay : PSPAUDIO_PlayDevice N this scratch = some (this', trace)) :
    this' = ⟨this.spec, some { h with next_buffer := (h.next_buffer + 1) % N }⟩ ∧
    (trace.filter Event.isBlockingWrite).length = 1 := by
  by_cases hf : this.spec.freq = 44100
  · rw [PlayDevice_native N this h scratch hh hf] at hplay
    simp only [Option.some.injEq, Prod.mk.injEq] at hplay
    obtain ⟨rfl, rfl⟩ := hplay
    exact ⟨rfl, rfl⟩
  · by_cases hc : this.spec.channels = 1
    · rw [PlayDevice_src_mono N this h scratch hh hf hc] at hplay
      cases hi : interleave (cellsAt h.rawbuf (PSPAUDIO_GetDeviceBuf h))
          (cellsAt h.rawbuf (PSPAUDIO_GetDeviceBuf h))
          ((scratch.map fun g => freshBlock (4 * this.spec.samples / 2) g).getD [])
          this.spec.samples with
      | none => rw [hi] at hplay; simp at hplay
      | some out =>
        rw [hi] at hplay
        simp only [Option.map_some', Option.some.injEq, Prod.mk.injEq] at hplay
        obtain ⟨rfl, rfl⟩ := hplay
        exact ⟨rfl, rfl⟩
    · rw [PlayDevice_src_stereo N this h scratch hh hf hc] at hplay
      simp only [Option.some.injEq, Prod.mk.injEq] at hplay
      obtain ⟨rfl, rfl⟩ := hplay
      exact ⟨rfl, rfl⟩

/-- C9: on a device with private data, a `PSPAUDIO_PlayDevice` that returns has made
exactly one blocking write and has left the mixing region as it was. (1) At 44100
Hz the call returns and its only call is the panned blocking write of
`mixbufs[next_buffer]`, the pointer `PSPAUDIO_GetDeviceBuf` returns, to the fixed
channel of the handle, at `PSP_AUDIO_VOLUME_MAX` on both sides. (2) At another
frequency with `channels ≠ 1` the call returns and its only call is the blocking
write of that same pointer to the converting channel at `PSP_AUDIO_VOLUME_MAX`.
(3) At another frequency with `channels = 1`, when the scratch block is allocated
and the current buffer holds at least `samples` 16-bit cells, the call returns
having allocated the scratch block of `4 * samples` bytes, written it to the
converting channel and freed it; the block written holds `2 * samples` cells with
`out[2 * i] = out[2 * i + 1] = mono[i]`, where `mono` is the current buffer. -/
theorem PlayDevice_write_paths (N : Nat) (this : SDL_AudioDevice) (h : SDL_PrivateAudioData)
    (scratch : Option (Nat → Nat)) (hh : this.hidden = some h) :
    (this.spec.freq = 44100 →
      ∃ this', PSPAUDIO_PlayDevice N this scratch =
        some (this', [Event.sceAudioOutputPannedBlocking h.channel PSP_AUDIO_VOLUME_MAX
          PSP_AUDIO_VOLUME_MAX (PSPAUDIO_GetDeviceBuf h)])) ∧
    (this.spec.freq ≠ 44100 → this.spec.channels ≠ 1 →
      ∃ this', PSPAUDIO_PlayDevice N this scratch =
        some (this', [Event.sceAudioSRCOutputBlocking PSP_AUDIO_VOLUME_MAX
          (OutBuf.mix (PSPAUDIO_GetDeviceBuf h))])) ∧
    (this.spec.freq ≠ 44100 → this.spec.channels = 1 → scratch.isSome = true →
      this.spec.samples ≤ (cellsAt h.rawbuf (PSPAUDIO_GetDeviceBuf h)).length →
      ∃ this' out, PSPAUDIO_PlayDevice N this scratch =
          some (this', [Event.SDL_malloc (4 * this.spec.samples) true,
            Event.sceAudioSRCOutputBlocking PSP_AUDIO_VOLUME_MAX (OutBuf.scratch (some out)),
            Event.SDL_free]) ∧
        out.length = 2 * this.spec.samples ∧
        ∀ i, i < this.spec.samples →
          out[2 * i]? = (cellsAt h.rawbuf (PSPAUDIO_GetDeviceBuf h))[i]? ∧
          out[2 * i + 1]? = (cellsAt h.rawbuf (PSPAUDIO_GetDeviceBuf h))[i]?) ∧
    (∀ this' trace, PSPAUDIO_PlayDevice N this scratch = some (this', trace) →
      (trace.filter Event.isBlockingWrite).length = 1 ∧
      this'.hidden.map SDL_PrivateAudioData.rawbuf = some h.rawbuf) := by
  refine ⟨fun hf => ⟨_, PlayDevice_native N this h scratch hh hf⟩,
    fun hf hc => ⟨_, PlayDevice_src_stereo N this h scratch hh hf hc⟩, ?_, ?_⟩
  · intro hf hc hs hcells
    obtain ⟨g, rfl⟩ := Option.isSome_iff_exists.mp hs
    obtain ⟨out, hrun, hlen, hout, -⟩ :=
      interleaveLoop_spec (cellsAt h.rawbuf (PSPAUDIO_GetDeviceBuf h))
        (cellsAt h.rawbuf (PSPAUDIO_GetDeviceBuf h)) this.spec.samples 0
        (freshBlock (4 * this.spec.samples / 2) g) (by omega) (by omega)
        (by rw [freshBlock_length]; omega)
    refine ⟨⟨this.spec, some { h with next_buffer := (h.next_buffer + 1) % N }⟩, out, ?_, ?_,
      fun i hi => hout i (by omega) (by omega)⟩
    · rw [PlayDevice_src_mono N this h (some g) hh hf hc]
      simp only [Option.map_some', Option.getD_some, Option.isSome_some]
      unfold interleave
      rw [hrun]
      rfl
    · rw [hlen, freshBlock_length]; omega
  · intro this' trace hplay
    obtain ⟨rfl, hone⟩ := PlayDevice_next N this this' h scratch trace hh hplay
    exact ⟨hone, rfl⟩

/-- Witness of C9: a mono device at 22050 Hz with two samples a buffer, playing its
second buffer. -/
theorem PlayDevice_write_paths_witness :
    ∃ this' out,
      PSPAUDIO_PlayDevice 2
          ⟨⟨22050, AUDIO_S16LSB, 1, 2, 4⟩, some ⟨0, some [1, 0, 2, 0, 3, 0, 4, 0], [some 0, some 4], 1⟩⟩
          (some fun _ => 9) =
        some (this', [Event.SDL_malloc (4 * 2) true,
          Event.sceAudioSRCOutputBlocking PSP_AUDIO_VOLUME_MAX (OutBuf.scratch (some out)),
          Event.SDL_free]) ∧
      out.length = 2 * 2 :=
  ((PlayDevice_write_paths 2
      ⟨⟨22050, AUDIO_S16LSB, 1, 2, 4⟩, some ⟨0, some [1, 0, 2, 0, 3, 0, 4, 0], [some 0, some 4], 1⟩⟩
      _ (some fun _ => 9) rfl).2.2.1 (by decide) (by decide) rfl (by decide)).elim
    fun this' h => h.elim fun out h => ⟨this', out, h.1, h.2.1⟩

/-! ## The buffer cursor over a run of the playback cycle -/

theorem memset_length (block : List Nat) (c n : Nat) :
    (memset block c n).length = block.length := by
  simp only [memset, List.length_append, List.length_replicate, List.length_drop]
  omega

theorem OpenDevice_opened (N : Nat) (hN : 0 < N) (dev : SDL_AudioDevice) (env : OpenEnv)
    (hopen : (PSPAUDIO_OpenDevice N dev env).2.2 = none) :
    Opened N (resolvedSpec dev.spec) (PSPAUDIO_OpenDevice N dev env).1 ∧
    ∃ h, (PSPAUDIO_OpenDevice N dev env).1.hidden = some h ∧ h.next_buffer = 0 := by
  revert hopen
  refine OpenDevice_cases N dev env (fun r => r.2.2 = none →
    Opened N (resolvedSpec dev.spec) r.1 ∧ ∃ h, r.1.hidden = some h ∧ h.next_buffer = 0)
    ?_ ?_ ?_ ?_ ?_
  · intro _ h; simp at h
  · intro _ _ h; simp at h
  · intro _ _ _ h; simp at h
  · intro _ _ _ _ _ h; simp at h
  · intro g _ _ _ _ _
    refine ⟨⟨rfl, _, rfl, hN, rfl, _, rfl, ?_⟩, _, rfl, rfl⟩
    rw [memset_length, freshBlock_length]

theorem fillCurrent_opened (N : Nat) (spec : SDL_AudioSpec) (this : SDL_AudioDevice)
    (data : Nat → Nat) (hop : Opened N spec this) :
    Opened N spec (fillCurrent this data) ∧
    (fillCurrent this data).hidden.map SDL_PrivateAudioData.next_buffer =
      this.hidden.map SDL_PrivateAudioData.next_buffer := by
  obtain ⟨hspec, h, hh, hnext, hmix, bytes, hraw, hlen⟩ := hop
  unfold fillCurrent
  rw [hh]
  simp only [hraw]
  cases hp : PSPAUDIO_GetDeviceBuf h with
  | none => exact ⟨⟨hspec, h, hh, hnext, hmix, bytes, hraw, hlen⟩, by simp [hh]⟩
  | some off =>
    refine ⟨⟨hspec, _, rfl, hnext, hmix, _, rfl, ?_⟩, rfl⟩
    simp [hlen]

theorem PlayDevice_opened (N : Nat) (spec : SDL_AudioSpec) (this this' : SDL_AudioDevice)
    (h : SDL_PrivateAudioData) (scratch : Option (Nat → Nat)) (trace : List Event)
    (hN : 0 < N) (hop : Opened N spec this) (hh : this.hidden = some h)
    (hplay : PSPAUDIO_PlayDevice N this scratch = some (this', trace)) :
    Opened N spec this' ∧
    this'.hidden = some { h with next_buffer := (h.next_buffer + 1) % N } := by
  obtain ⟨rfl, -⟩ := PlayDevice_next N this this' h scratch trace hh hplay
  obtain ⟨hspec, h0, hh0, hnext, hmix, bytes, hraw, hlen⟩ := hop
  rw [hh] at hh0
  cases hh0
  exact ⟨⟨hspec, _, rfl, Nat.mod_lt _ hN, hmix, bytes, hraw, hlen⟩, rfl⟩

theorem PlayDevice_returns (N : Nat) (spec : SDL_AudioSpec) (this : SDL_AudioDevice)
    (scratch : Option (Nat → Nat)) (hop : Opened N spec this)
    (hmono : spec.freq ≠ 44100 → spec.channels = 1 →
      scratch.isSome = true ∧ spec.size = 2 * spec.samples ∧ spec.size * N < 2 ^ 32) :
    ∃ r, PSPAUDIO_PlayDevice N this scratch = some r := by
  obtain ⟨hspec, h, hh, hnext, hmix, bytes, hraw, hlen⟩ := hop
  subst hspec
  by_cases hf : this.spec.freq = 44100
  · exact ⟨_, PlayDevice_native N this h scratch hh hf⟩
  · by_cases hc : this.spec.channels = 1
    · obtain ⟨hs, hsize, hfit⟩ := hmono hf hc
      obtain ⟨g, rfl⟩ := Option.isSome_iff_exists.mp hs
      have hbuf : PSPAUDIO_GetDeviceBuf h = some (h.next_buffer * this.spec.size) := by
        have hle : h.next_buffer * this.spec.size < 2 ^ 32 :=
          lt_of_le_of_lt (by
            rw [Nat.mul_comm]
            exact Nat.mul_le_mul_left _ (Nat.le_of_lt hnext)) hfit
        simp [PSPAUDIO_GetDeviceBuf, hmix, List.getD_eq_getElem?_getD, hnext,
          Nat.mod_eq_of_lt hle]
        exact hle
      have hcells : this.spec.samples ≤ (cellsAt h.rawbuf (PSPAUDIO_GetDeviceBuf h)).length := by
        rw [hraw, hbuf, cellsAt_length, hlen, Nat.mod_eq_of_lt hfit]
        have h1 : h.next_buffer * this.spec.size + this.spec.size ≤ this.spec.size * N := by
          calc h.next_buffer * this.spec.size + this.spec.size
              = this.spec.size * (h.next_buffer + 1) := by ring
            _ ≤ this.spec.size * N := Nat.mul_le_mul_left _ hnext
        omega
      obtain ⟨out, hrun, -⟩ :=
        interleaveLoop_spec (cellsAt h.rawbuf (PSPAUDIO_GetDeviceBuf h))
          (cellsAt h.rawbuf (PSPAUDIO_GetDeviceBuf h)) this.spec.samples 0
          (freshBlock (4 * this.spec.samples / 2) g) (by omega) (by omega)
          (by rw [freshBlock_length]; omega)
      rw [PlayDevice_src_mono N this h (some g) hh hf hc]
      simp only [Option.map_some', Option.getD_some]
      unfold interleave
      rw [hrun]
      exact ⟨_, rfl⟩
    · exact ⟨_, PlayDevice_src_stereo N this h scratch hh hf hc⟩

theorem runOps_cursor (N : Nat) (hN : 0 < N) (spec : SDL_AudioSpec) :
    ∀ (ops : List Op) (this : SDL_AudioDevice) (h : SDL_PrivateAudioData),
      Opened N spec this → this.hidden = some h →
      (∀ d, runOps N this ops = some d →
        ∃ h', d.hidden = some h' ∧
          h'.next_buffer = (h.next_buffer + ops.countP Op.isPlay) % N) ∧
      ((spec.freq ≠ 44100 → spec.channels = 1 →
          (∀ op ∈ ops, Op.allocates op = true) ∧ spec.size = 2 * spec.samples ∧
            spec.size * N < 2 ^ 32) →
        ∃ d, runOps N this ops = some d) := by
  intro ops
  induction ops with
  | nil =>
    intro this h hop hh
    refine ⟨fun d hd => ?_, fun _ => ⟨this, rfl⟩⟩
    simp only [runOps, Option.some.injEq] at hd
    subst hd
    obtain ⟨-, h0, hh0, hnext, -⟩ := hop
    rw [hh] at hh0; cases hh0
    exact ⟨h, hh, by simp [Nat.mod_eq_of_lt hnext]⟩
  | cons op ops ih =>
    intro this h hop hh
    cases op with
    | fill data =>
      obtain ⟨hop', hnext'⟩ := fillCurrent_opened N spec this data hop
      rw [hh] at hnext'
      obtain ⟨-, h1, hh1, -⟩ := id hop'
      rw [hh1] at hnext'
      simp only [Option.map_some', Option.some.injEq] at hnext'
      obtain ⟨ihc, iht⟩ := ih (fillCurrent this data) h1 hop' hh1
      constructor
      · intro d hd
        simp only [runOps] at hd
        obtain ⟨h', hh', hcur⟩ := ihc d hd
        exact ⟨h', hh', by rw [hcur, hnext']; simp [Op.isPlay]⟩
      · intro hm
        simp only [runOps]
        exact iht fun hf hc => ⟨fun op hop => (hm hf hc).1 op (List.mem_cons_of_mem _ hop),
          (hm hf hc).2⟩
    | play scratch =>
      constructor
      · intro d hd
        simp only [runOps] at hd
        cases hp : PSPAUDIO_PlayDevice N this scratch with
        | none => rw [hp] at hd; simp at hd
        | some r =>
          obtain ⟨this', trace⟩ := r
          rw [hp] at hd
          obtain ⟨hop', hh'⟩ := PlayDevice_opened N spec this this' h scratch trace hN hop hh hp
          obtain ⟨h', hh'', hcur⟩ := (ih this' _ hop' hh').1 d hd
          refine ⟨h', hh'', ?_⟩
          rw [hcur]
          simp only [List.countP_cons_of_pos _ _ (show Op.isPlay (Op.play scratch) = true from rfl)]
          rw [Nat.mod_add_mod]
          congr 1
          omega
      · intro hm
        obtain ⟨r, hp⟩ := PlayDevice_returns N spec this scratch hop fun hf hc =>
          ⟨by
            have := (hm hf hc).1 (Op.play scratch) (List.mem_cons_self _ _)
            cases scratch with
            | none => simp [Op.allocates] at this
            | some g => rfl, (hm hf hc).2⟩
        obtain ⟨this', trace⟩ := r
        obtain ⟨hop', hh'⟩ := PlayDevice_opened N spec this this' h scratch trace hN hop hh hp
        simp only [runOps, hp]
        exact (ih this' _ hop' hh').2 fun hf hc =>
          ⟨fun op hop => (hm hf hc).1 op (List.mem_cons_of_mem _ hop), (hm hf hc).2⟩

/-- C3: from the device of a successful open, whose cursor is 0, run any sequence
of buffer fills and calls to `PSPAUDIO_PlayDevice`. Whenever the run returns, the
cursor equals the number of plays modulo `NUM_BUFFERS` and lies below
`NUM_BUFFERS`; this holds at every frequency and channel count, so on each of the
three write paths. The run does return: always on the two paths that write the
mix buffer itself, and on the mono resample path provided every scratch block is
allocated and the pool has at most 32768 buffers (so that the length of the
region fits 32 bits). -/
theorem next_buffer_cycle (N : Nat) (hN : 0 < N) (dev : SDL_AudioDevice) (env : OpenEnv)
    (hopen : (PSPAUDIO_OpenDevice N dev env).2.2 = none) (ops : List Op) :
    (∀ d, runOps N (PSPAUDIO_OpenDevice N dev env).1 ops = some d →
      ∃ h, d.hidden = some h ∧ h.next_buffer = ops.countP Op.isPlay % N ∧
        h.next_buffer < N) ∧
    ((dev.spec.freq ≠ 44100 → dev.spec.channels = 1 →
        N ≤ 32768 ∧ ∀ op ∈ ops, Op.allocates op = true) →
      ∃ d, runOps N (PSPAUDIO_OpenDevice N dev env).1 ops = some d) := by
  obtain ⟨hop, h, hh, hzero⟩ := OpenDevice_opened N hN dev env hopen
  obtain ⟨hcur, hret⟩ := runOps_cursor N hN (resolvedSpec dev.spec) ops _ h hop hh
  constructor
  · intro d hd
    obtain ⟨h', hh', hc⟩ := hcur d hd
    rw [hzero, Nat.zero_add] at hc
    exact ⟨h', hh', hc, by rw [hc]; exact Nat.mod_lt _ hN⟩
  · intro hm
    refine hret fun hf hc => ?_
    obtain ⟨hsmall, hall⟩ := hm hf hc
    have hch : (resolvedSpec dev.spec).channels = 1 := hc
    have hsize : (resolvedSpec dev.spec).size = 2 * (resolvedSpec dev.spec).samples := by
      show (resolvedSpec dev.spec).samples * (resolvedSpec dev.spec).channels * 2 = _
      rw [hch]; omega
    have hs : (resolvedSpec dev.spec).samples ≤ 65535 := by
      show PSP_AUDIO_SAMPLE_ALIGN dev.spec.samples % 2 ^ 16 ≤ 65535
      omega
    refine ⟨hall, hsize, ?_⟩
    rw [hsize, Nat.mul_assoc]
    have := Nat.mul_le_mul hs hsmall
    omega

/-- Witness of C3: a mono device at 22050 Hz, filled once and played three times. -/
theorem next_buffer_cycle_witness :
    ∃ d, runOps 2 (PSPAUDIO_OpenDevice 2 ⟨⟨22050, 16, 1, 100, 0⟩, none⟩
        ⟨true, some fun _ => 7, 0⟩).1
      [Op.fill fun i => i, Op.play (some fun _ => 9), Op.play (some fun _ => 9),
        Op.play (some fun _ => 9)] = some d :=
  (next_buffer_cycle 2 (by decide) ⟨⟨22050, 16, 1, 100, 0⟩, none⟩ ⟨true, some fun _ => 7, 0⟩
    rfl [Op.fill fun i => i, Op.play (some fun _ => 9), Op.play (some fun _ => 9),
      Op.play (some fun _ => 9)]).2 fun _ _ => ⟨by decide, by decide⟩

/-! ## The resolved buffer size and the mixing region -/

theorem memset_freshBlock (n : Nat) (g : Nat → Nat) :
    memset (freshBlock n g) 0 n = List.replicate n 0 := by
  simp [memset, freshBlock]

theorem resolvedSpec_size (spec : SDL_AudioSpec) :
    (resolvedSpec spec).size = (resolvedSpec spec).samples * (resolvedSpec spec).channels * 2 :=
  rfl

theorem resolvedSpec_samples_lt (spec : SDL_AudioSpec) :
    (resolvedSpec spec).samples ≤ 65472 ∧ 64 ∣ (resolvedSpec spec).samples := by
  show PSP_AUDIO_SAMPLE_ALIGN spec.samples % 2 ^ 16 ≤ 65472 ∧
    64 ∣ PSP_AUDIO_SAMPLE_ALIGN spec.samples % 2 ^ 16
  unfold PSP_AUDIO_SAMPLE_ALIGN
  omega

theorem resolvedSpec_fits (spec : SDL_AudioSpec) (N : Nat) (hch : spec.channels < 256)
    (hN : N ≤ 64) : (resolvedSpec spec).size * N < 2 ^ 31 := by
  have hs := (resolvedSpec_samples_lt spec).1
  have hc : (resolvedSpec spec).channels ≤ 255 := Nat.lt_succ_iff.mp hch
  have h1 : (resolvedSpec spec).samples * (resolvedSpec spec).channels ≤ 65472 * 255 :=
    Nat.mul_le_mul hs hc
  have h2 : (resolvedSpec spec).samples * (resolvedSpec spec).channels * 2 * N ≤
      65472 * 255 * 2 * 64 := Nat.mul_le_mul (by omega) hN
  rw [resolvedSpec_size]
  omega

theorem Opened_cells (N : Nat) (spec : SDL_AudioSpec) (this : SDL_AudioDevice)
    (h : SDL_PrivateAudioData) (hop : Opened N spec this) (hh : this.hidden = some h)
    (hfit : spec.size * N < 2 ^ 32) :
    ∃ bytes, h.rawbuf = some bytes ∧ bytes.length = spec.size * N ∧
      PSPAUDIO_GetDeviceBuf h = some (h.next_buffer * spec.size) ∧
      h.next_buffer * spec.size + spec.size ≤ bytes.length ∧
      (cellsAt h.rawbuf (PSPAUDIO_GetDeviceBuf h)).length =
        (bytes.length - h.next_buffer * spec.size) / 2 := by
  obtain ⟨hspec, h0, hh0, hnext, hmix, bytes, hraw, hlen⟩ := hop
  rw [hh] at hh0
  cases hh0
  have hle : h.next_buffer * spec.size < 2 ^ 32 :=
    lt_of_le_of_lt (by
      rw [Nat.mul_comm]
      exact Nat.mul_le_mul_left _ (Nat.le_of_lt hnext)) hfit
  have hbuf : PSPAUDIO_GetDeviceBuf h = some (h.next_buffer * spec.size) := by
    simp [PSPAUDIO_GetDeviceBuf, hmix, List.getD_eq_getElem?_getD, hnext,
      Nat.mod_eq_of_lt hle]
    exact hle
  have hlen' : bytes.length = spec.size * N := by rw [hlen, Nat.mod_eq_of_lt hfit]
  refine ⟨bytes, hraw, hlen', hbuf, ?_, ?_⟩
  · rw [hlen']
    calc h.next_buffer * spec.size + spec.size = spec.size * (h.next_buffer + 1) := by ring
      _ ≤ spec.size * N := Nat.mul_le_mul_left _ hnext
  · rw [hraw, hbuf, cellsAt_length]

/-- C12: once `PSPAUDIO_OpenDevice` has accepted the format and rounded the sample
count, for every requested sample count and channel count the resolved `size` is
the resolved sample count `× channels × 2` (the channel count is left as
requested) and is a multiple of 64; and for every 8-bit channel count and a pool
of at most 64 buffers (so that the product fits an `int`) the length `mixlen`
passed to `memalign` is `size × NUM_BUFFERS`, which on success is the length of the
region. -/
theorem OpenDevice_buffer_size (N : Nat) (this : SDL_AudioDevice) (env : OpenEnv)
    (halloc : env.hiddenAlloc = true) (hfmt : formatAccepted this.spec.format) :
    (PSPAUDIO_OpenDevice N this env).1.spec.size =
      (PSPAUDIO_OpenDevice N this env).1.spec.samples *
        (PSPAUDIO_OpenDevice N this env).1.spec.channels * 2 ∧
    (PSPAUDIO_OpenDevice N this env).1.spec.channels = this.spec.channels ∧
    64 ∣ (PSPAUDIO_OpenDevice N this env).1.spec.size ∧
    (this.spec.channels < 256 → N ≤ 64 →
      (∃ ok rest, (PSPAUDIO_OpenDevice N this env).2.1 =
        Event.memalign 64 ((PSPAUDIO_OpenDevice N this env).1.spec.size * N) ok :: rest) ∧
      ((PSPAUDIO_OpenDevice N this env).2.2 = none →
        ∃ h bytes, (PSPAUDIO_OpenDevice N this env).1.hidden = some h ∧
          h.rawbuf = some bytes ∧
          bytes.length = (PSPAUDIO_OpenDevice N this env).1.spec.size * N)) := by
  have hdvd : 64 ∣ (resolvedSpec this.spec).size := by
    rw [resolvedSpec_size]
    exact Dvd.dvd.mul_right (Dvd.dvd.mul_right (resolvedSpec_samples_lt this.spec).2 _) _
  rw [OpenDevice_spec N this env halloc hfmt]
  refine ⟨rfl, rfl, hdvd, fun hch hN => ?_⟩
  have hfit : (resolvedSpec this.spec).size * N < 2 ^ 32 :=
    lt_trans (resolvedSpec_fits this.spec N hch hN) (by norm_num)
  have hmod := Nat.mod_eq_of_lt hfit
  cases hraw : env.rawAlloc with
  | none =>
    rw [OpenDevice_rawAllocFail N this env halloc hfmt hraw]
    exact ⟨⟨false, [], by rw [hmod]⟩, fun h => by simp at h⟩
  | some g =>
    by_cases hret : env.reserveRet < 0
    · rw [OpenDevice_reserveFail N this env g halloc hfmt hraw hret]
      exact ⟨⟨true, _, by rw [hmod]⟩, fun h => by simp at h⟩
    · rw [OpenDevice_success N this env g halloc hfmt hraw (not_lt.mp hret)]
      refine ⟨⟨true, _, by rw [hmod]⟩, fun _ => ⟨_, _, rfl, rfl, ?_⟩⟩
      rw [memset_length, freshBlock_length, hmod]

/-- Witness of C12: a stereo request of 100 samples. -/
theorem OpenDevice_buffer_size_witness :
    64 ∣ (PSPAUDIO_OpenDevice 2 ⟨⟨44100, 16, 2, 100, 0⟩, none⟩
      ⟨true, some fun _ => 7, 0⟩).1.spec.size :=
  (OpenDevice_buffer_size 2 ⟨⟨44100, 16, 2, 100, 0⟩, none⟩ ⟨true, some fun _ => 7, 0⟩
    rfl (by decide)).2.2.1

/-- C13: on every successful `PSPAUDIO_OpenDevice` (8-bit channel count, a pool of at
most 64 buffers) the cursor is 0, the region holds `size × NUM_BUFFERS` bytes that
are all zero, and for every `i < NUM_BUFFERS` the pointer `mixbufs[i]` is the byte
offset `i × size` into the region, its `size` bytes lying inside the region. The
views are pairwise disjoint (view `i` ends at or before the start of view `j` when
`i < j`) and every byte of the region lies in exactly one view. -/
theorem OpenDevice_mix_buffers (N : Nat) (dev : SDL_AudioDevice) (env : OpenEnv)
    (hopen : (PSPAUDIO_OpenDevice N dev env).2.2 = none)
    (hch : dev.spec.channels < 256) (hN : N ≤ 64) :
    ∃ h bytes, (PSPAUDIO_OpenDevice N dev env).1.hidden = some h ∧
      h.next_buffer = 0 ∧ h.rawbuf = some bytes ∧
      bytes.length = (PSPAUDIO_OpenDevice N dev env).1.spec.size * N ∧
      (∀ p, p < bytes.length → bytes[p]? = some 0) ∧
      h.mixbufs.length = N ∧
      (∀ i, i < N →
        h.mixbufs[i]? = some (some (i * (PSPAUDIO_OpenDevice N dev env).1.spec.size)) ∧
        i * (PSPAUDIO_OpenDevice N dev env).1.spec.size +
          (PSPAUDIO_OpenDevice N dev env).1.spec.size ≤ bytes.length) ∧
      (∀ i j, i < j → j < N →
        i * (PSPAUDIO_OpenDevice N dev env).1.spec.size +
          (PSPAUDIO_OpenDevice N dev env).1.spec.size ≤
        j * (PSPAUDIO_OpenDevice N dev env).1.spec.size) ∧
      (∀ p, p < bytes.length →
        ∃! i, i < N ∧ i * (PSPAUDIO_OpenDevice N dev env).1.spec.size ≤ p ∧
          p < i * (PSPAUDIO_OpenDevice N dev env).1.spec.size +
            (PSPAUDIO_OpenDevice N dev env).1.spec.size) := by
  revert hopen
  refine OpenDevice_cases N dev env (fun r => r.2.2 = none →
    ∃ h bytes, r.1.hidden = some h ∧ h.next_buffer = 0 ∧ h.rawbuf = some bytes ∧
      bytes.length = r.1.spec.size * N ∧ (∀ p, p < bytes.length → bytes[p]? = some 0) ∧
      h.mixbufs.length = N ∧
      (∀ i, i < N → h.mixbufs[i]? = some (some (i * r.1.spec.size)) ∧
        i * r.1.spec.size + r.1.spec.size ≤ bytes.length) ∧
      (∀ i j, i < j → j < N → i * r.1.spec.size + r.1.spec.size ≤ j * r.1.spec.size) ∧
      (∀ p, p < bytes.length →
        ∃! i, i < N ∧ i * r.1.spec.size ≤ p ∧ p < i * r.1.spec.size + r.1.spec.size))
    ?_ ?_ ?_ ?_ ?_
  · intro _ h; simp at h
  · intro _ _ h; simp at h
  · intro _ _ _ h; simp at h
  · intro _ _ _ _ _ h; simp at h
  · intro g _ _ _ _ _
    have hfit : (resolvedSpec dev.spec).size * N < 2 ^ 32 :=
      lt_trans (resolvedSpec_fits dev.spec N hch hN) (by norm_num)
    have hmod := Nat.mod_eq_of_lt hfit
    generalize hsz : (resolvedSpec dev.spec).size = size at hfit hmod
    have hstep : ∀ i, i < N → i * size + size ≤ size * N := fun i hi =>
      calc i * size + size = size * (i + 1) := by ring
        _ ≤ size * N := Nat.mul_le_mul_left _ hi
    refine ⟨_, _, rfl, rfl, rfl, ?_, ?_, ?_, ?_, ?_, ?_⟩
    · simp only [hsz, hmod, memset_freshBlock, List.length_replicate]
    · intro p hp
      simp only [hsz, hmod, memset_freshBlock, List.length_replicate] at hp ⊢
      simp [List.getElem?_replicate, hp]
    · simp
    · intro i hi
      have hlt : i * size < 2 ^ 32 := lt_of_le_of_lt (by have := hstep i hi; omega) hfit
      refine ⟨?_, ?_⟩
      · simp only [hsz, List.getElem?_map, List.getElem?_range hi, Option.map_some',
          Nat.mod_eq_of_lt hlt]
      · simp only [hsz, hmod, memset_freshBlock, List.length_replicate]
        exact hstep i hi
    · intro i j hij hj
      calc i * size + size = (i + 1) * size := by ring
        _ ≤ j * size := Nat.mul_le_mul_right _ hij
    · intro p hp
      simp only [hsz, hmod, memset_freshBlock, List.length_replicate] at hp ⊢
      have hpos : 0 < size := by
        rcases Nat.eq_zero_or_pos size with h0 | h0
        · rw [h0] at hp; simp at hp
        · exact h0
      refine ⟨p / size, ⟨?_, ?_, ?_⟩, ?_⟩
      · exact Nat.div_lt_of_lt_mul hp
      · exact Nat.div_mul_le_self p size
      · have := Nat.lt_div_mul_add hpos (a := p)
        exact this
      · rintro i ⟨_, hlo, hhi⟩
        have h1 : i ≤ p / size := (Nat.le_div_iff_mul_le hpos).mpr hlo
        have h2 : p / size < i + 1 := by
          apply Nat.div_lt_of_lt_mul
          calc p < i * size + size := hhi
            _ = size * (i + 1) := by ring
        omega

/-- Witness of C13: a successful mono open of 100 samples with two buffers. -/
theorem OpenDevice_mix_buffers_witness :
    ∃ h bytes, (PSPAUDIO_OpenDevice 2 ⟨⟨22050, 16, 1, 100, 0⟩, none⟩
        ⟨true, some fun _ => 7, 0⟩).1.hidden = some h ∧
      h.next_buffer = 0 ∧ h.rawbuf = some bytes :=
  (OpenDevice_mix_buffers 2 ⟨⟨22050, 16, 1, 100, 0⟩, none⟩ ⟨true, some fun _ => 7, 0⟩
    rfl (by decide) (by decide)).imp fun _ hh => hh.imp fun _ hb => ⟨hb.1, hb.2.1, hb.2.2.1⟩

/-! ## Index safety of the mono resample path -/

theorem interleaveLoop_isSome_iff (in_L in_R : List Nat) :
    ∀ (todo i : Nat) (out : List Nat),
      (interleaveLoop in_L in_R todo i out).isSome = true ↔
        ∀ a ∈ interleaveAccesses todo i, a.inBounds in_L.length in_R.length out.length := by
  intro todo
  induction todo with
  | zero =>
    intro i out
    simp [interleaveLoop, interleaveAccesses]
  | succ todo ih =>
    intro i out
    simp only [interleaveAccesses, List.forall_mem_cons, Access.inBounds]
    constructor
    · intro hsome
      unfold interleaveLoop at hsome
      cases hl : in_L[i]? with
      | none => simp [hl] at hsome
      | some l =>
        cases hr : in_R[i]? with
        | none => simp [hl, hr] at hsome
        | some r =>
          simp only [hl, hr] at hsome
          by_cases hw : i * 2 + 1 < out.length
          · rw [if_pos hw] at hsome
            have hrest := (ih (i + 1) _).mp hsome
            simp only [List.length_set] at hrest
            have hiL : i < in_L.length := by
              by_contra hcon
              rw [List.getElem?_eq_none (not_lt.mp hcon)] at hl
              exact Option.noConfusion hl
            have hiR : i < in_R.length := by
              by_contra hcon
              rw [List.getElem?_eq_none (not_lt.mp hcon)] at hr
              exact Option.noConfusion hr
            exact ⟨hiL, by omega, hiR, hw, hrest⟩
          · rw [if_neg hw] at hsome
            simp at hsome
    · rintro ⟨hiL, _, hiR, hw, hrest⟩
      unfold interleaveLoop
      simp only [List.getElem?_eq_getElem hiL, List.getElem?_eq_getElem hiR, if_pos hw]
      apply (ih (i + 1) _).mpr
      simpa only [List.length_set] using hrest

theorem interleaveAccesses_bounds :
    ∀ (todo i : Nat) (a : Access), a ∈ interleaveAccesses todo i →
      a.inBounds (i + todo) (i + todo) (2 * (i + todo)) := by
  intro todo
  induction todo with
  | zero => intro i a ha; simp [interleaveAccesses] at ha
  | succ todo ih =>
    intro i a ha
    simp only [interleaveAccesses, List.mem_cons] at ha
    rcases ha with rfl | rfl | rfl | rfl | ha
    · show i < i + (todo + 1); omega
    · show i * 2 < 2 * (i + (todo + 1)); omega
    · show i < i + (todo + 1); omega
    · show i * 2 + 1 < 2 * (i + (todo + 1)); omega
    · have := ih (i + 1) a ha
      rw [show i + 1 + todo = i + (todo + 1) by omega] at this
      exact this

theorem runOps_opened (N : Nat) (hN : 0 < N) (spec : SDL_AudioSpec) :
    ∀ (ops : List Op) (this d : SDL_AudioDevice),
      Opened N spec this → runOps N this ops = some d → Opened N spec d := by
  intro ops
  induction ops with
  | nil =>
    intro this d hop hd
    simp only [runOps, Option.some.injEq] at hd
    exact hd ▸ hop
  | cons op ops ih =>
    intro this d hop hd
    cases op with
    | fill data =>
      simp only [runOps] at hd
      exact ih _ d (fillCurrent_opened N spec this data hop).1 hd
    | play scratch =>
      simp only [runOps] at hd
      cases hp : PSPAUDIO_PlayDevice N this scratch with
      | none => rw [hp] at hd; simp at hd
      | some r =>
        obtain ⟨this', trace⟩ := r
        rw [hp] at hd
        obtain ⟨-, h, hh, -⟩ := id hop
        exact ih this' d (PlayDevice_opened N spec this this' h scratch trace hN hop hh hp).1 hd

theorem PlayDevice_mono_opened (N : Nat) (spec : SDL_AudioSpec) (this : SDL_AudioDevice)
    (h : SDL_PrivateAudioData) (g : Nat → Nat) (hop : Opened N spec this)
    (hh : this.hidden = some h) (hf : spec.freq ≠ 44100) (hc : spec.channels = 1)
    (hsize : spec.size = 2 * spec.samples) (hfit : spec.size * N < 2 ^ 32) :
    ∃ out, PSPAUDIO_PlayDevice N this (some g) =
        some (⟨this.spec, some { h with next_buffer := (h.next_buffer + 1) % N }⟩,
          [Event.SDL_malloc (4 * spec.samples) true,
            Event.sceAudioSRCOutputBlocking PSP_AUDIO_VOLUME_MAX (OutBuf.scratch (some out)),
            Event.SDL_free]) ∧
      out.length = 2 * spec.samples ∧
      ∀ i, i < spec.samples →
        out[2 * i]? = (cellsAt h.rawbuf (PSPAUDIO_GetDeviceBuf h))[i]? ∧
        out[2 * i + 1]? = (cellsAt h.rawbuf (PSPAUDIO_GetDeviceBuf h))[i]? := by
  obtain ⟨bytes, hraw, hlen, hbuf, hin, hcl⟩ := Opened_cells N spec this h hop hh hfit
  have hspec : this.spec = spec := hop.1
  have hcells : spec.samples ≤ (cellsAt h.rawbuf (PSPAUDIO_GetDeviceBuf h)).length := by
    rw [hcl]; omega
  obtain ⟨out, hrun, hlen', hout, -⟩ :=
    interleaveLoop_spec (cellsAt h.rawbuf (PSPAUDIO_GetDeviceBuf h))
      (cellsAt h.rawbuf (PSPAUDIO_GetDeviceBuf h)) spec.samples 0
      (freshBlock (4 * spec.samples / 2) g) (by omega) (by omega)
      (by rw [freshBlock_length]; omega)
  refine ⟨out, ?_, ?_, fun i hi => hout i (by omega) (by omega)⟩
  · rw [PlayDevice_src_mono N this h (some g) hh (hspec ▸ hf) (hspec ▸ hc), hspec]
    simp only [Option.map_some', Option.getD_some, Option.isSome_some]
    unfold interleave
    rw [hrun]
    rfl
  · rw [hlen', freshBlock_length]; omega

theorem resolvedSpec_mono_fits (spec : SDL_AudioSpec) (N : Nat) (hc : spec.channels = 1)
    (hpool : N ≤ 32768) :
    (resolvedSpec spec).size = 2 * (resolvedSpec spec).samples ∧
    (resolvedSpec spec).size * N < 2 ^ 32 := by
  have hch : (resolvedSpec spec).channels = 1 := hc
  have hsize : (resolvedSpec spec).size = 2 * (resolvedSpec spec).samples := by
    rw [resolvedSpec_size, hch]; omega
  have hs := (resolvedSpec_samples_lt spec).1
  refine ⟨hsize, ?_⟩
  rw [hsize, Nat.mul_assoc]
  have := Nat.mul_le_mul hs hpool
  omega

/-- C14: on a device opened successfully with a frequency other than 44100 and one
channel (a pool of at most 32768 buffers), in every state reached by fills and
plays: the current mix buffer starts at byte `next_buffer × size` of the region
and its `size = 2 × samples` bytes end inside the region, where the next mix
buffer starts; every access the loop of `interleave` makes for `samples`
iterations reads at a 16-bit index `< samples` and writes at a 16-bit index
`< 2 × samples`; the two bytes of such a read lie within the `size` bytes of
the mix buffer and the two bytes of such a write within the `4 × samples` bytes
of the scratch block. Accordingly `interleave` returns when it is given only the
`samples` cells of the current mix buffer and a scratch block of `2 × samples`
cells, and `PSPAUDIO_PlayDevice` returns whenever the scratch block is allocated. -/
theorem mono_resample_index_safety (N : Nat) (hN : 0 < N) (hpool : N ≤ 32768)
    (dev : SDL_AudioDevice) (env : OpenEnv)
    (hopen : (PSPAUDIO_OpenDevice N dev env).2.2 = none)
    (hf : dev.spec.freq ≠ 44100) (hc : dev.spec.channels = 1)
    (ops : List Op) (d : SDL_AudioDevice)
    (hrun : runOps N (PSPAUDIO_OpenDevice N dev env).1 ops = some d) :
    ∃ h bytes, d.hidden = some h ∧ h.rawbuf = some bytes ∧
      d.spec.freq ≠ 44100 ∧ d.spec.channels = 1 ∧
      d.spec.size = 2 * d.spec.samples ∧
      PSPAUDIO_GetDeviceBuf h = some (h.next_buffer * d.spec.size) ∧
      h.next_buffer * d.spec.size + d.spec.size ≤ bytes.length ∧
      (∀ a ∈ interleaveAccesses d.spec.samples 0,
        a.inBounds d.spec.samples d.spec.samples (2 * d.spec.samples)) ∧
      (∀ i, i < d.spec.samples → 2 * i + 2 ≤ d.spec.size) ∧
      (∀ j, j < 2 * d.spec.samples → 2 * j + 2 ≤ 4 * d.spec.samples) ∧
      (∀ g : Nat → Nat,
        ((cellsAt h.rawbuf (PSPAUDIO_GetDeviceBuf h)).take d.spec.samples).length =
          d.spec.samples ∧
        (freshBlock (4 * d.spec.samples / 2) g).length = 2 * d.spec.samples ∧
        (interleave ((cellsAt h.rawbuf (PSPAUDIO_GetDeviceBuf h)).take d.spec.samples)
          ((cellsAt h.rawbuf (PSPAUDIO_GetDeviceBuf h)).take d.spec.samples)
          (freshBlock (4 * d.spec.samples / 2) g) d.spec.samples).isSome = true ∧
        ∃ r, PSPAUDIO_PlayDevice N d (some g) = some r) := by
  obtain ⟨hop0, -⟩ := OpenDevice_opened N hN dev env hopen
  have hop := runOps_opened N hN (resolvedSpec dev.spec) ops _ d hop0 hrun
  obtain ⟨hsize, hfit⟩ := resolvedSpec_mono_fits dev.spec N hc hpool
  have hspec : d.spec = resolvedSpec dev.spec := hop.1
  obtain ⟨-, h, hh, -⟩ := id hop
  obtain ⟨bytes, hraw, hlen, hbuf, hin, hcl⟩ :=
    Opened_cells N (resolvedSpec dev.spec) d h hop hh hfit
  have hacc : ∀ a ∈ interleaveAccesses d.spec.samples 0,
      a.inBounds d.spec.samples d.spec.samples (2 * d.spec.samples) := by
    intro a ha
    have := interleaveAccesses_bounds d.spec.samples 0 a ha
    rwa [Nat.zero_add] at this
  rw [hspec]
  rw [hspec] at hacc
  refine ⟨h, bytes, hh, hraw, hf, hc, hsize, hbuf, hin, hacc, ?_, ?_, ?_⟩
  · intro i hi; omega
  · intro j hj; omega
  · intro g
    have htake : ((cellsAt h.rawbuf (PSPAUDIO_GetDeviceBuf h)).take
        (resolvedSpec dev.spec).samples).length = (resolvedSpec dev.spec).samples := by
      rw [List.length_take, hcl]; omega
    have hfresh : (freshBlock (4 * (resolvedSpec dev.spec).samples / 2) g).length =
        2 * (resolvedSpec dev.spec).samples := by
      rw [freshBlock_length]; omega
    refine ⟨htake, hfresh, ?_, ?_⟩
    · unfold interleave
      rw [interleaveLoop_isSome_iff, htake, hfresh]
      exact hacc
    · obtain ⟨out, hplay, -⟩ :=
        PlayDevice_mono_opened N (resolvedSpec dev.spec) d h g hop hh hf hc hsize hfit
      exact ⟨_, hplay⟩

set_option maxRecDepth 100000 in
/-- Witness of C14: a mono device at 22050 Hz with 64 samples a buffer, after one
fill and one play; the last write of the loop, at index 127. -/
theorem mono_resample_index_safety_witness :
    Access.inBounds 64 64 (2 * 64) (Access.write 127) :=
  (mono_resample_index_safety 2 (by decide) (by decide) ⟨⟨22050, 16, 1, 1, 0⟩, none⟩
    ⟨true, some fun _ => 7, 0⟩ rfl (by decide) rfl
    [Op.fill fun i => i, Op.play (some fun _ => 9)] _ rfl).elim
    fun _ hh => hh.elim fun _ hb => hb.2.2.2.2.2.2.2.1 (Access.write 127) (by decide)

/-! ## The scenario of a mono request at 22050 Hz -/

/-- C11: the scenario of a 16-bit request at 22050 Hz with one channel and 100
samples, allocation and channel reservation succeeding (for a pool of at most
32768 buffers). The open succeeds and resolves the sample count to 128; its only
reservation call reserves the converting channel for 128 samples at 22050 Hz with
2 output channels, which the hardware then holds. After any fills of the current
buffer the cursor is still 0 and the current buffer is the one at offset 0; the
first `PSPAUDIO_PlayDevice` allocates a scratch block of exactly 512 bytes,
interleaves the 128 mono samples of that buffer into it (`out[2 * i] =
out[2 * i + 1] = mono[i]`, 256 cells), passes it to the blocking write of the
converting channel and frees it, leaving the cursor at `1 mod NUM_BUFFERS`. -/
theorem scenario_mono_22050 (N : Nat) (hN : 0 < N) (hpool : N ≤ 32768)
    (dev : SDL_AudioDevice) (env : OpenEnv) (g g' : Nat → Nat)
    (hformat : dev.spec.format &&& 0xff = 16) (hfreq : dev.spec.freq = 22050)
    (hch : dev.spec.channels = 1) (hs : dev.spec.samples = 100)
    (halloc : env.hiddenAlloc = true) (hraw : env.rawAlloc = some g)
    (hret : 0 ≤ env.reserveRet)
    (fills : List Op) (hfills : ∀ op ∈ fills, Op.isPlay op = false) :
    (PSPAUDIO_OpenDevice N dev env).2.2 = none ∧
    (PSPAUDIO_OpenDevice N dev env).1.spec.samples = 128 ∧
    (PSPAUDIO_OpenDevice N dev env).2.1.filter Event.isReserve =
      [Event.sceAudioSRCChReserve 128 22050 2 env.reserveRet] ∧
    hwAfter none (PSPAUDIO_OpenDevice N dev env).2.1 = some HwChannel.src ∧
    ∃ d h, runOps N (PSPAUDIO_OpenDevice N dev env).1 fills = some d ∧
      d.hidden = some h ∧ h.next_buffer = 0 ∧ PSPAUDIO_GetDeviceBuf h = some 0 ∧
      128 ≤ (cellsAt h.rawbuf (some 0)).length ∧
      ∃ this' h' out, PSPAUDIO_PlayDevice N d (some g') =
          some (this', [Event.SDL_malloc 512 true,
            Event.sceAudioSRCOutputBlocking PSP_AUDIO_VOLUME_MAX (OutBuf.scratch (some out)),
            Event.SDL_free]) ∧
        out.length = 256 ∧
        (∀ i, i < 128 →
          out[2 * i]? = (cellsAt h.rawbuf (some 0))[i]? ∧
          out[2 * i + 1]? = (cellsAt h.rawbuf (some 0))[i]?) ∧
        this'.hidden = some h' ∧ h'.next_buffer = 1 % N := by
  have hfmt : formatAccepted dev.spec.format := Or.inr hformat
  have hsamples : (resolvedSpec dev.spec).samples = 128 := by
    show PSP_AUDIO_SAMPLE_ALIGN dev.spec.samples % 2 ^ 16 = 128
    rw [hs]; rfl
  have hf : (resolvedSpec dev.spec).freq ≠ 44100 := by
    show dev.spec.freq ≠ 44100
    rw [hfreq]; decide
  have hc : (resolvedSpec dev.spec).channels = 1 := hch
  obtain ⟨hsize, hfit⟩ := resolvedSpec_mono_fits dev.spec N hch hpool
  have hsuccess := OpenDevice_success N dev env g halloc hfmt hraw hret
  have hopen : (PSPAUDIO_OpenDevice N dev env).2.2 = none := by rw [hsuccess]
  obtain ⟨hop0, h0, hh0, hzero⟩ := OpenDevice_opened N hN dev env hopen
  obtain ⟨hcur, hreturns⟩ :=
    runOps_cursor N hN (resolvedSpec dev.spec) fills _ h0 hop0 hh0
  obtain ⟨d, hd⟩ := hreturns fun _ _ =>
    ⟨fun op hop => by
      have := hfills op hop
      cases op with
      | fill data => rfl
      | play scratch => simp [Op.isPlay] at this, hsize, hfit⟩
  obtain ⟨h, hh, hnext⟩ := hcur d hd
  have hcount : fills.countP Op.isPlay = 0 := by
    rw [List.countP_eq_zero]
    intro op hop
    simp [hfills op hop]
  rw [hzero, hcount, Nat.zero_add, Nat.zero_mod] at hnext
  have hop := runOps_opened N hN (resolvedSpec dev.spec) fills _ d hop0 hd
  obtain ⟨bytes, hrawb, hlen, hbuf, hin, hcl⟩ :=
    Opened_cells N (resolvedSpec dev.spec) d h hop hh hfit
  rw [hnext, Nat.zero_mul] at hbuf
  obtain ⟨out, hplay, hlenout, hout⟩ :=
    PlayDevice_mono_opened N (resolvedSpec dev.spec) d h g' hop hh hf hc hsize hfit
  rw [hbuf, hsamples] at hout
  rw [hsamples] at hplay hlenout
  refine ⟨hopen, ?_, ?_, ?_, d, h, hd, hh, hnext, hbuf, ?_, _, _, out, hplay, hlenout, hout, rfl,
    ?_⟩
  · rw [hsuccess]; exact hsamples
  · rw [hsuccess]
    simp [List.filter, Event.isReserve, reserveCall, hf, hsamples, hfreq]
    exact hfreq
  · rw [hsuccess]
    show hwStep (hwStep none _) (reserveCall _ _) = _
    rw [hwAfter_reserveCall, if_pos hret, if_neg hf]
  · rw [hbuf] at hcl
    rw [hcl, hnext]
    omega
  · simp [hnext]

/-- Witness of C11: the scenario with two buffers, the caller filling the buffer
once before the first play. -/
theorem scenario_mono_22050_witness :
    (PSPAUDIO_OpenDevice 2 ⟨⟨22050, 0x8010, 1, 100, 0⟩, none⟩
      ⟨true, some fun _ => 7, 0⟩).1.spec.samples = 128 :=
  (scenario_mono_22050 2 (by decide) (by decide) ⟨⟨22050, 0x8010, 1, 100, 0⟩, none⟩
    ⟨true, some fun _ => 7, 0⟩ (fun _ => 7) (fun _ => 9) (by decide) rfl rfl rfl rfl rfl
    (by decide) [Op.fill fun i => i] (by decide)).2.1

end PSPAudio

namespace PS2Joystick

/-! ## The button loop and the axis check -/

theorem button_table_length (m : PadMasks) : (button_table m).length = 16 := rfl

theorem buttonLoop_spec (table : List Nat) (pad prev : Nat) :
    ∀ (todo b : Nat), b + todo ≤ table.length →
      ∃ evs, buttonLoop table pad prev todo b = some evs ∧
        evs.Nodup ∧ (∀ e ∈ evs, JoyEvent.isButton e = true) ∧
        ∀ c state, JoyEvent.SDL_PrivateJoystickButton c state ∈ evs ↔
          (b ≤ c ∧ c < b + todo ∧
            pad &&& table.getD c 0 ≠ prev &&& table.getD c 0 ∧
            state = if pad &&& table.getD c 0 ≠ 0 then ButtonState.SDL_PRESSED
              else ButtonState.SDL_RELEASED) := by
  intro todo
  induction todo with
  | zero =>
    intro b _
    refine ⟨[], rfl, List.nodup_nil, by simp, fun c state => ?_⟩
    simp only [List.not_mem_nil, false_iff]
    omega
  | succ todo ih =>
    intro b hb
    have hlt : b < table.length := by omega
    obtain ⟨rest, hrest, hnodup, hbut, hmem⟩ := ih (b + 1) (by omega)
    have hget : table[b]? = some (table.getD b 0) := by
      rw [List.getD_eq_getElem?_getD, List.getElem?_eq_getElem hlt]
      rfl
    by_cases hchg : pad &&& table.getD b 0 ≠ prev &&& table.getD b 0
    · refine ⟨JoyEvent.SDL_PrivateJoystickButton b
          (if pad &&& table.getD b 0 ≠ 0 then ButtonState.SDL_PRESSED
            else ButtonState.SDL_RELEASED) :: rest, ?_, ?_, ?_, ?_⟩
      · simp only [buttonLoop, hget, hrest, if_pos hchg]
        rfl
      · refine List.nodup_cons.mpr ⟨fun hin => ?_, hnodup⟩
        have := (hmem _ _).mp hin
        omega
      · intro e he
        rcases List.mem_cons.mp he with rfl | he
        · rfl
        · exact hbut e he
      · intro c state
        simp only [List.mem_cons, JoyEvent.SDL_PrivateJoystickButton.injEq, hmem]
        constructor
        · rintro (⟨rfl, rfl⟩ | ⟨h1, h2, h3, h4⟩)
          · exact ⟨le_refl _, by omega, hchg, rfl⟩
          · exact ⟨by omega, by omega, h3, h4⟩
        · rintro ⟨h1, h2, h3, h4⟩
          by_cases hc : c = b
          · subst hc
            exact Or.inl ⟨rfl, h4⟩
          · exact Or.inr ⟨by omega, by omega, h3, h4⟩
    · refine ⟨rest, ?_, hnodup, hbut, ?_⟩
      · simp only [buttonLoop, hget, hrest, if_neg hchg]
        rfl
      · intro c state
        rw [hmem]
        constructor
        · rintro ⟨h1, h2, h3, h4⟩
          exact ⟨by omega, by omega, h3, h4⟩
        · rintro ⟨h1, h2, h3, h4⟩
          have hc : c ≠ b := by
            rintro rfl
            exact hchg h3
          exact ⟨by omega, by omega, h3, h4⟩

theorem CHECK_AXIS_spec (raw : Nat) (prev : Int) :
    (CHECK_AXIS raw prev).1 = ((raw : Int) - 127) * 127 ∧
    (((raw : Int) - 127) * 127 ≠ prev →
      (CHECK_AXIS raw prev).2 = [JoyEvent.SDL_PrivateJoystickAxis 0 (((raw : Int) - 127) * 127)]) ∧
    (((raw : Int) - 127) * 127 = prev → (CHECK_AXIS raw prev).2 = []) ∧
    (raw ≤ 255 → -32768 ≤ ((raw : Int) - 127) * 127 ∧ ((raw : Int) - 127) * 127 ≤ 32767) := by
  unfold CHECK_AXIS
  by_cases h : ((raw : Int) - 127) * 127 = prev
  · simp [h]
    intro hr
    omega
  · simp [h]
    intro hr
    omega

theorem CHECK_AXIS_no_button (raw : Nat) (prev : Int) :
    ∀ e ∈ (CHECK_AXIS raw prev).2, JoyEvent.isButton e = false := by
  unfold CHECK_AXIS
  by_cases h : ((raw : Int) - 127) * 127 = prev <;> simp [h, JoyEvent.isButton]

/-! ## The read phase of `PS2_JoystickUpdate` -/

theorem readPad_read (m : PadMasks) (joystick : SDL_Joystick) (hw : joystick_hwdata)
    (env : UpdateEnv) (trace : List JoyEvent) (buttons : padButtonStatus)
    (hn : joystick.nbuttons = 16) (hready : pad_ready env.statesRead = some true)
    (hread : env.read = some buttons) :
    ∃ reported,
      readPad m joystick hw env trace =
        some (⟨joystick.naxes, joystick.nballs, joystick.nhats, joystick.nbuttons, some
                ⟨hw.deviceid, hw.rumble, hw.port, hw.slot, 0xffff ^^^ buttons.btns,
                  (CHECK_AXIS buttons.ljoy_h hw.prev_ljoy_h).1,
                  (CHECK_AXIS buttons.ljoy_v hw.prev_ljoy_v).1,
                  (CHECK_AXIS buttons.rjoy_h hw.prev_rjoy_h).1,
                  (CHECK_AXIS buttons.rjoy_v hw.prev_rjoy_v).1⟩⟩,
          trace ++ reported ++
            ((CHECK_AXIS buttons.ljoy_h hw.prev_ljoy_h).2 ++
              (CHECK_AXIS buttons.ljoy_v hw.prev_ljoy_v).2 ++
              (CHECK_AXIS buttons.rjoy_h hw.prev_rjoy_h).2 ++
              (CHECK_AXIS buttons.rjoy_v hw.prev_rjoy_v).2)) ∧
      reported.Nodup ∧ (∀ e ∈ reported, JoyEvent.isButton e = true) ∧
      ∀ c state, JoyEvent.SDL_PrivateJoystickButton c state ∈ reported ↔
        (c < 16 ∧
          (0xffff ^^^ buttons.btns) &&& (button_table m).getD c 0 ≠
            hw.prev_pad &&& (button_table m).getD c 0 ∧
          state = if (0xffff ^^^ buttons.btns) &&& (button_table m).getD c 0 ≠ 0
            then ButtonState.SDL_PRESSED else ButtonState.SDL_RELEASED) := by
  by_cases hpad : 0xffff ^^^ buttons.btns = hw.prev_pad
  · refine ⟨[], ?_, List.nodup_nil, by simp, ?_⟩
    · unfold readPad
      simp only [hready, hread, hpad, ne_eq, not_true_eq_false, if_false, List.append_nil,
        List.append_assoc]
    · intro c state
      simp only [List.not_mem_nil, false_iff, hpad]
      rintro ⟨-, h, -⟩
      exact h rfl
  · obtain ⟨reported, hloop, hnodup, hbut, hmem⟩ :=
      buttonLoop_spec (button_table m) (0xffff ^^^ buttons.btns) hw.prev_pad 16 0
        (by rw [button_table_length])
    refine ⟨reported, ?_, hnodup, hbut, ?_⟩
    · unfold readPad
      simp only [hready, hread, hn, ne_eq, hpad, not_false_eq_true, if_true,
        show (16 : Int).toNat = 16 from rfl, hloop, List.append_assoc]
    · intro c state
      rw [hmem]
      constructor
      · rintro ⟨-, h2, h3, h4⟩
        exact ⟨by omega, h3, h4⟩
      · rintro ⟨h2, h3, h4⟩
        exact ⟨Nat.zero_le _, by omega, h3, h4⟩

theorem readPad_buttons (m : PadMasks) (joystick : SDL_Joystick) (hw : joystick_hwdata)
    (env : UpdateEnv) (trace : List JoyEvent) (r : SDL_Joystick × List JoyEvent)
    (hr : readPad m joystick hw env trace = some r) (e : JoyEvent) (he : e ∈ r.2)
    (hb : JoyEvent.isButton e = true) :
    e ∈ trace ∨ ∃ buttons, env.read = some buttons ∧ 0xffff ^^^ buttons.btns ≠ hw.prev_pad := by
  unfold readPad at hr
  cases hready : pad_ready env.statesRead with
  | none => simp [hready] at hr
  | some ready =>
    cases ready with
    | false =>
      simp only [hready, Option.some.injEq] at hr
      subst hr
      exact Or.inl he
    | true =>
      cases hread : env.read with
      | none =>
        simp only [hready, hread, Option.some.injEq] at hr
        subst hr
        exact Or.inl he
      | some buttons =>
        by_cases hpad : 0xffff ^^^ buttons.btns = hw.prev_pad
        · simp only [hready, hread, hpad, ne_eq, not_true_eq_false, if_false,
            Option.some.injEq] at hr
          subst hr
          simp only [List.append_nil, List.mem_append] at he
          rcases he with (((he | he) | he) | he) | he
          · exact Or.inl he
          · rw [CHECK_AXIS_no_button _ _ e he] at hb; exact absurd hb (by decide)
          · rw [CHECK_AXIS_no_button _ _ e he] at hb; exact absurd hb (by decide)
          · rw [CHECK_AXIS_no_button _ _ e he] at hb; exact absurd hb (by decide)
          · rw [CHECK_AXIS_no_button _ _ e he] at hb; exact absurd hb (by decide)
        · exact Or.inr ⟨buttons, rfl, hpad⟩

theorem Update_cases (m : PadMasks) (joystick : SDL_Joystick) (hw : joystick_hwdata)
    (env : UpdateEnv) (hhw : joystick.hwdata = some hw) :
    (hw.deviceid = -1 ∧
      (pad_ready env.statesInit = none ∨ pad_ready env.statesMode = none) ∧
      PS2_JoystickUpdate m joystick env = none) ∨
    (hw.deviceid = -1 ∧ pad_ready env.statesInit = some false ∧
      PS2_JoystickUpdate m joystick env = some (joystick, [])) ∨
    ∃ hw0 trace0, PS2_JoystickUpdate m joystick env = readPad m joystick hw0 env trace0 ∧
      hw0.prev_pad = hw.prev_pad ∧ hw0.prev_ljoy_h = hw.prev_ljoy_h ∧
      hw0.prev_ljoy_v = hw.prev_ljoy_v ∧ hw0.prev_rjoy_h = hw.prev_rjoy_h ∧
      hw0.prev_rjoy_v = hw.prev_rjoy_v ∧
      ∀ e ∈ trace0, JoyEvent.isButton e = false ∧ JoyEvent.isAxis e = false := by
  unfold PS2_JoystickUpdate
  rw [hhw]
  by_cases hid : hw.deviceid = -1
  · simp only [hid, if_true]
    cases h1 : pad_ready env.statesInit with
    | none => exact Or.inl ⟨trivial, Or.inl rfl, rfl⟩
    | some ready =>
      cases ready with
      | false => exact Or.inr (Or.inl ⟨trivial, rfl, rfl⟩)
      | true =>
        cases h2 : pad_ready env.statesMode with
        | none => exact Or.inl ⟨trivial, Or.inr rfl, rfl⟩
        | some ready2 =>
          refine Or.inr (Or.inr ?_)
          by_cases hact : env.infoAct = 0
          · exact ⟨{ hw with deviceid := env.modeCurId },
              [JoyEvent.padSetMainMode hw.port hw.slot],
              by simp only [hact, ne_eq, not_true_eq_false, if_false], rfl, rfl,
              rfl, rfl, rfl, by simp [JoyEvent.isButton, JoyEvent.isAxis]⟩
          · exact ⟨{ hw with deviceid := env.modeCurId, rumble := 1 },
              [JoyEvent.padSetMainMode hw.port hw.slot, JoyEvent.padSetActAlign hw.port hw.slot],
              by simp only [ne_eq, hact, not_false_eq_true, if_true], rfl, rfl,
              rfl, rfl, rfl, by simp [JoyEvent.isButton, JoyEvent.isAxis]⟩
  · simp only [hid, if_false]
    exact Or.inr (Or.inr ⟨hw, [], rfl, rfl, rfl, rfl, rfl, rfl, by simp⟩)

/-! ## Button change detection -/

theorem Update_reads (m : PadMasks) (joystick : SDL_Joystick) (hw : joystick_hwdata)
    (env : UpdateEnv) (hhw : joystick.hwdata = some hw)
    (hinit : hw.deviceid = -1 →
      pad_ready env.statesInit = some true ∧ pad_ready env.statesMode ≠ none) :
    ∃ hw0 trace0, PS2_JoystickUpdate m joystick env = readPad m joystick hw0 env trace0 ∧
      hw0.prev_pad = hw.prev_pad ∧ hw0.prev_ljoy_h = hw.prev_ljoy_h ∧
      hw0.prev_ljoy_v = hw.prev_ljoy_v ∧ hw0.prev_rjoy_h = hw.prev_rjoy_h ∧
      hw0.prev_rjoy_v = hw.prev_rjoy_v ∧
      ∀ e ∈ trace0, JoyEvent.isButton e = false ∧ JoyEvent.isAxis e = false := by
  rcases Update_cases m joystick hw env hhw with ⟨hid, hnone, -⟩ | ⟨hid, hfalse, -⟩ | h
  · obtain ⟨h1, h2⟩ := hinit hid
    rcases hnone with hnone | hnone
    · rw [h1] at hnone; exact absurd hnone (by simp)
    · exact absurd hnone h2
  · rw [(hinit hid).1] at hfalse
    exact absurd hfalse (by simp)
  · exact h

theorem Update_no_button_repeat (m : PadMasks) (joystick : SDL_Joystick)
    (hw : joystick_hwdata) (env : UpdateEnv) (buttons : padButtonStatus)
    (r : SDL_Joystick × List JoyEvent)
    (hupd : PS2_JoystickUpdate m joystick env = some r)
    (hhw : joystick.hwdata = some hw) (hread : env.read = some buttons)
    (hprev : hw.prev_pad = 0xffff ^^^ buttons.btns) :
    ∀ e ∈ r.2, JoyEvent.isButton e = false := by
  intro e he
  by_contra hb
  have hb' : JoyEvent.isButton e = true := by
    cases hval : JoyEvent.isButton e
    · exact absurd hval hb
    · rfl
  rcases Update_cases m joystick hw env hhw with ⟨-, -, hnone⟩ | ⟨-, -, hsame⟩ | h
  · rw [hnone] at hupd; exact Option.noConfusion hupd
  · rw [hsame] at hupd
    simp only [Option.some.injEq] at hupd
    subst hupd
    exact absurd he (List.not_mem_nil e)
  · obtain ⟨hw1, trace1, hupd1, hprev1, -, -, -, -, htrace1⟩ := h
    rw [hupd1] at hupd
    rcases readPad_buttons m joystick hw1 env trace1 r hupd e he hb' with hin | ⟨b3, hr3, hne⟩
    · rw [(htrace1 e hin).1] at hb'
      exact Bool.noConfusion hb'
    · rw [hread] at hr3
      simp only [Option.some.injEq] at hr3
      subst hr3
      rw [hprev1, hprev] at hne
      exact hne rfl

/-- C15: on a joystick with 16 buttons, when the update reaches a successful pad
read (the pad is ready, also during the initialisation if the device id is still
`-1`, and `padRead` fills in `buttons`), with `pad = 0xffff XOR buttons.btns`: the
update returns; for every button index `b < 16` a button event for `b` is in its
trace if and only if `pad` and the stored `prev_pad` differ under the mask
`button_table[b]`, and the state reported is `SDL_PRESSED` exactly when `pad` is
non-zero under that mask; no button event occurs twice and none has an index
`≥ 16`; afterwards `prev_pad = pad`, and a further update whose reading has the
same button word reports no button at all. -/
theorem JoystickUpdate_buttons (m : PadMasks) (joystick : SDL_Joystick)
    (hw : joystick_hwdata) (env : UpdateEnv) (buttons : padButtonStatus)
    (hhw : joystick.hwdata = some hw) (hn : joystick.nbuttons = 16)
    (hinit : hw.deviceid = -1 →
      pad_ready env.statesInit = some true ∧ pad_ready env.statesMode ≠ none)
    (hready : pad_ready env.statesRead = some true) (hread : env.read = some buttons) :
    ∃ joystick' hw' trace, PS2_JoystickUpdate m joystick env = some (joystick', trace) ∧
      joystick'.hwdata = some hw' ∧ joystick'.nbuttons = 16 ∧
      hw'.prev_pad = 0xffff ^^^ buttons.btns ∧
      (∀ b state, JoyEvent.SDL_PrivateJoystickButton b state ∈ trace ↔
        (b < 16 ∧
          (0xffff ^^^ buttons.btns) &&& (button_table m).getD b 0 ≠
            hw.prev_pad &&& (button_table m).getD b 0 ∧
          state = if (0xffff ^^^ buttons.btns) &&& (button_table m).getD b 0 ≠ 0
            then ButtonState.SDL_PRESSED else ButtonState.SDL_RELEASED)) ∧
      (trace.filter JoyEvent.isButton).Nodup ∧
      (∀ (env2 : UpdateEnv) (buttons2 : padButtonStatus) (r : SDL_Joystick × List JoyEvent),
        env2.read = some buttons2 → buttons2.btns = buttons.btns →
        PS2_JoystickUpdate m joystick' env2 = some r →
        ∀ e ∈ r.2, JoyEvent.isButton e = false) := by
  obtain ⟨hw0, trace0, hupd, hprev, -, -, -, -, htrace0⟩ :=
    Update_reads m joystick hw env hhw hinit
  obtain ⟨reported, hrun, hnodup, hbut, hmem⟩ :=
    readPad_read m joystick hw0 env trace0 buttons hn hready hread
  rw [hprev] at hmem
  have haxes : ∀ e ∈ (CHECK_AXIS buttons.ljoy_h hw0.prev_ljoy_h).2 ++
      (CHECK_AXIS buttons.ljoy_v hw0.prev_ljoy_v).2 ++
      (CHECK_AXIS buttons.rjoy_h hw0.prev_rjoy_h).2 ++
      (CHECK_AXIS buttons.rjoy_v hw0.prev_rjoy_v).2, JoyEvent.isButton e = false := by
    intro e he
    simp only [List.mem_append] at he
    rcases he with ((he | he) | he) | he <;> exact CHECK_AXIS_no_button _ _ e he
  refine ⟨_, _, _, hupd.trans hrun, rfl, hn, rfl, ?_, ?_, ?_⟩
  · intro b state
    rw [← hmem]
    simp only [List.mem_append]
    constructor
    · rintro ((h | h) | h)
      · have := (htrace0 _ h).1
        simp [JoyEvent.isButton] at this
      · exact h
      · have := haxes (JoyEvent.SDL_PrivateJoystickButton b state)
          (by simp only [List.mem_append]; exact h)
        simp [JoyEvent.isButton] at this
    · exact fun h => Or.inl (Or.inr h)
  · have h0 : trace0.filter JoyEvent.isButton = [] :=
      List.filter_eq_nil_iff.mpr fun e he => by simp [(htrace0 e he).1]
    have h1 : reported.filter JoyEvent.isButton = reported :=
      List.filter_eq_self.mpr hbut
    have h2 : ((CHECK_AXIS buttons.ljoy_h hw0.prev_ljoy_h).2 ++
        (CHECK_AXIS buttons.ljoy_v hw0.prev_ljoy_v).2 ++
        (CHECK_AXIS buttons.rjoy_h hw0.prev_rjoy_h).2 ++
        (CHECK_AXIS buttons.rjoy_v hw0.prev_rjoy_v).2).filter JoyEvent.isButton = [] :=
      List.filter_eq_nil_iff.mpr fun e he => by simp [haxes e he]
    rw [List.filter_append, List.filter_append, h0, h1, h2, List.nil_append,
      List.append_nil]
    exact hnodup
  · intro env2 buttons2 r hread2 hsame hupd2
    exact Update_no_button_repeat m _ _ env2 buttons2 r hupd2 rfl hread2 (by rw [hsame])

/-- Witness of C15: the first update of a freshly opened joystick, with LEFT and
CROSS held. -/
theorem JoystickUpdate_buttons_witness :
    ∃ joystick' hw' trace,
      PS2_JoystickUpdate libpadMasks (PS2_JoystickOpen ⟨0, 0, 0, 0, none⟩ true 0 0).1
          ⟨[PadState.other 1, PadState.PAD_STATE_STABLE], 7, [PadState.PAD_STATE_STABLE], 0,
            [PadState.PAD_STATE_STABLE], some ⟨0xffff - 0x4000 - 0x0080, 127, 127, 127, 127⟩⟩ =
        some (joystick', trace) ∧
      joystick'.hwdata = some hw' ∧ hw'.prev_pad = 0x4080 :=
  (JoystickUpdate_buttons libpadMasks (PS2_JoystickOpen ⟨0, 0, 0, 0, none⟩ true 0 0).1 _
    ⟨[PadState.other 1, PadState.PAD_STATE_STABLE], 7, [PadState.PAD_STATE_STABLE], 0,
      [PadState.PAD_STATE_STABLE], some ⟨0xffff - 0x4000 - 0x0080, 127, 127, 127, 127⟩⟩ _
    rfl rfl (fun _ => ⟨by decide, by decide⟩) (by decide) rfl).elim
    fun j' h => h.elim fun hw' h => h.elim fun trace h => ⟨j', hw', trace, h.1, h.2.1, h.2.2.2.1⟩

/-! ## Axis change reporting -/

theorem isAxis_of_isButton (e : JoyEvent) (h : JoyEvent.isButton e = true) :
    JoyEvent.isAxis e = false := by
  cases e <;> simp_all [JoyEvent.isButton, JoyEvent.isAxis]

theorem CHECK_AXIS_isAxis (raw : Nat) (prev : Int) :
    ∀ e ∈ (CHECK_AXIS raw prev).2, JoyEvent.isAxis e = true := by
  unfold CHECK_AXIS
  by_cases h : ((raw : Int) - 127) * 127 = prev <;> simp [h, JoyEvent.isAxis]

theorem JoystickUpdate_axes (m : PadMasks) (joystick : SDL_Joystick)
    (hw : joystick_hwdata) (env : UpdateEnv) (buttons : padButtonStatus)
    (hhw : joystick.hwdata = some hw) (hn : joystick.nbuttons = 16)
    (hinit : hw.deviceid = -1 →
      pad_ready env.statesInit = some true ∧ pad_ready env.statesMode ≠ none)
    (hready : pad_ready env.statesRead = some true) (hread : env.read = some buttons) :
    ∃ joystick' hw' trace, PS2_JoystickUpdate m joystick env = some (joystick', trace) ∧
      joystick'.hwdata = some hw' ∧
      hw'.prev_ljoy_h = ((buttons.ljoy_h : Int) - 127) * 127 ∧
      hw'.prev_ljoy_v = ((buttons.ljoy_v : Int) - 127) * 127 ∧
      hw'.prev_rjoy_h = ((buttons.rjoy_h : Int) - 127) * 127 ∧
      hw'.prev_rjoy_v = ((buttons.rjoy_v : Int) - 127) * 127 ∧
      trace.filter JoyEvent.isAxis =
        (CHECK_AXIS buttons.ljoy_h hw.prev_ljoy_h).2 ++
          (CHECK_AXIS buttons.ljoy_v hw.prev_ljoy_v).2 ++
          (CHECK_AXIS buttons.rjoy_h hw.prev_rjoy_h).2 ++
          (CHECK_AXIS buttons.rjoy_v hw.prev_rjoy_v).2 := by
  obtain ⟨hw0, trace0, hupd, -, h1, h2, h3, h4, htrace0⟩ :=
    Update_reads m joystick hw env hhw hinit
  obtain ⟨reported, hrun, -, hbut, -⟩ :=
    readPad_read m joystick hw0 env trace0 buttons hn hready hread
  have hax : ∀ raw prev, (CHECK_AXIS raw prev).1 = ((raw : Int) - 127) * 127 :=
    fun raw prev => (CHECK_AXIS_spec raw prev).1
  rw [h1, h2, h3, h4] at hrun
  refine ⟨_, _, _, hupd.trans hrun, rfl, hax _ _, hax _ _, hax _ _, hax _ _, ?_⟩
  have f0 : trace0.filter JoyEvent.isAxis = [] :=
    List.filter_eq_nil_iff.mpr fun e he => by simp [(htrace0 e he).2]
  have f1 : reported.filter JoyEvent.isAxis = [] :=
    List.filter_eq_nil_iff.mpr fun e he => by simp [isAxis_of_isButton e (hbut e he)]
  simp only [List.filter_append, f0, f1, List.nil_append,
    List.filter_eq_self.mpr (CHECK_AXIS_isAxis _ _)]

/-- C16 at the failing input: the first update of a freshly opened joystick whose
reading has the left stick pushed fully along its vertical axis (`ljoy_v = 255`)
and everything else at rest. The converted value 16256 is stored in `prev_ljoy_v`,
but it is reported on axis 0, the literal of the macro `CHECK_AXIS`, not on axis 1. -/
theorem axis_reported_on_index_zero :
    PS2_JoystickUpdate libpadMasks (PS2_JoystickOpen ⟨0, 0, 0, 0, none⟩ true 0 0).1
        ⟨[PadState.PAD_STATE_STABLE], 7, [PadState.PAD_STATE_STABLE], 0,
          [PadState.PAD_STATE_STABLE], some ⟨0xffff, 127, 127, 127, 255⟩⟩ =
      some (⟨4, 0, 0, 16, some ⟨7, 0, 0, 0, 0, 0, 16256, 0, 0⟩⟩,
        [JoyEvent.padSetMainMode 0 0, JoyEvent.SDL_PrivateJoystickAxis 0 16256]) := by
  decide

end PS2Joystick
